import Mathlib

/-!
# Multisig treasury command-line clients

A shallow embedding of the decision logic of the scripts under `scripts/`
(`propose.js`, `execute.js`, `approve.js`, `approve_ticket.js`,
`execute_ticket.js`, `status.js`, `pause.js`, `mint_ticket.js`, and the tables
and constants of `demo_full.js` and `deploy.js`).  Each script reads a few values from a
deployed contract, prints lines and possibly submits one transaction.  A run
is modelled as a function from the values the reads return to the list of
events the run produces, in order.  `bigint` values are `Int`/`Nat`,
`uint256` answers of the contract are `Nat`.

The contracts themselves (`MultiSigTreasury.sol`, `ChangeTicket.sol`) are not
part of the sources; where a property needs them they are modelled from the
specification and marked as such.
-/

namespace Treasury

/-- A state-changing contract method a script calls through its signer: the
call that submits a transaction.  The severity of `mintTicket` is a JavaScript
number, `none` standing for `NaN`. -/
inductive Tx where
  | proposeETH (dest : String) (amount : Int) (description : String)
  | approve (txId : Nat)
  | execute (txId : Nat)
  | pause
  | unpause
  | mintTicket (holder : String) (changeScope : String) (severity : Option Int)
  | approveTicket (tokenId : String)
  | executeTicket (tokenId : String) (resultMsg : String)
  deriving DecidableEq

/-- What a run does that can be observed from outside: a line written with
`console.log`, a line written with `console.error`, a transaction sent. -/
inductive Event where
  | log (line : String)
  | error (line : String)
  | send (tx : Tx)
  deriving DecidableEq

/-- The transactions of a run, in the order they were sent. -/
def sent : List Event → List Tx
  | [] => []
  | Event.send tx :: es => tx :: sent es
  | _ :: es => sent es

/-- `await` of a call inside `main`: a rejected promise leaves `main` and is
printed by `main().catch(console.error)`; nothing after it runs. -/
def await {α : Type} (r : Except String α) (k : α → List Event) : List Event :=
  match r with
  | Except.ok a => k a
  | Except.error e => [Event.error e]

/-- `await` of a call inside a `try` block: a rejected promise runs the
`catch` handler instead of the rest of the block. -/
def awaitTry {α : Type} (r : Except String α) (handler : String → List Event)
    (k : α → List Event) : List Event :=
  match r with
  | Except.ok a => k a
  | Except.error e => handler e

/-- The record `vault.getTransaction(txId)` returns, with the fields the
scripts read.  `timelockUntil` is the integer the contract holds; the scripts
read it through `Number(..)`, which is exact below `2^53`, and every clock
reading is below that bound, so their comparisons are those of the integers. -/
structure TxInfo where
  dest : String
  value : Nat
  description : String
  level : Nat
  approvals : Nat
  executed : Bool
  cancelled : Bool
  timelockUntil : Nat
  deriving DecidableEq

/-- The record `ticket.getTicketInfo(tokenId)` returns, with the fields the
scripts read; `severity` and `status` are the numeric codes of the enums,
`timelockUntil` is held as in `TxInfo`. -/
structure TicketInfo where
  changeScope : String
  severity : Nat
  status : Nat
  requiredApprovals : Nat
  approvals : Nat
  timelockUntil : Nat
  deriving DecidableEq

/-- The rule line the scripts print above and below their title. -/
def bar : String := "========================================"

/-! ## `propose.js` -/

/-- The label `propose.js` announces for an amount (lines 35-38):
`if (amount <= limits.l1Threshold) .. else if (amount <= limits.l2Threshold) .. else ..`. -/
def level (amount l1Threshold l2Threshold : Int) : String :=
  if amount ≤ l1Threshold then "L1 (타임락 없음)"
  else if amount ≤ l2Threshold then "L2 (타임락 1분 30초)"
  else "L3 (타임락 2분)"

/-! ## `execute.js` -/

/-- What the calls of `execute.js` return in one run.  `now` is
`Math.floor(Date.now() / 1000)`; `execute` is `vault.execute(txId)` followed by
`tx.wait()` and holds the transaction hash. -/
structure ExecuteReads where
  canExecute : Except String (Bool × String)
  getTransaction : Except String TxInfo
  now : Nat
  getBalance : Except String Nat
  execute : Except String String
  getBalanceAfter : Except String Nat

/-- The line of `execute.js` for a timelock that has not elapsed (line 37). -/
def timelockWaitLine (remaining : Int) : String :=
  "\n❌ 타임락 대기 중: " ++ toString remaining ++ "초 남음"

/-- The line of `execute.js` for a `canExecute` answer of false (line 43). -/
def cannotExecuteLine (reason : String) : String :=
  "\n❌ 실행 불가: " ++ reason

/-- The line of `execute.js` for a treasury balance below the value (line 50). -/
def insufficientLine : String := "\n❌ 금고 잔액 부족!"

/-- The body of `main` in `execute.js` from line 22 on, for a parsed id. -/
def executeMain (formatEther : Nat → String) (txId : Nat) (r : ExecuteReads) : List Event :=
  await r.canExecute fun (canExec, reason) =>
  await r.getTransaction fun txInfo =>
  [Event.log bar, Event.log "🚀 거래 실행", Event.log bar,
   Event.log ("거래 ID: " ++ toString txId),
   Event.log ("금액: " ++ formatEther txInfo.value ++ " ETH"),
   Event.log ("승인 수: " ++ toString txInfo.approvals ++ " / 2")] ++
  if txInfo.timelockUntil > r.now then
    let remaining : Int := (txInfo.timelockUntil : Int) - (r.now : Int)
    [Event.log (timelockWaitLine remaining),
     Event.log ("   " ++ toString remaining ++ "초 후에 다시 실행하세요!")]
  else if !canExec then
    [Event.log (cannotExecuteLine reason)]
  else
    await r.getBalance fun balance =>
    if balance < txInfo.value then
      [Event.log insufficientLine,
       Event.log ("   필요: " ++ formatEther txInfo.value ++ " ETH"),
       Event.log ("   잔액: " ++ formatEther balance ++ " ETH")]
    else
      Event.log "\n⏳ 실행 중..." :: Event.send (Tx.execute txId) ::
      await r.execute fun hash =>
      Event.log "\n✅ 실행 완료! ETH 전송됨!" :: Event.log ("   TX: " ++ hash) ::
      await r.getBalanceAfter fun newBalance =>
      [Event.log ("   새 잔액: " ++ formatEther newBalance ++ " ETH")]

/-! ## `approve.js` -/

/-- What the calls of `approve.js` return in one run: the two reads before
the decision, `vault.approve(txId)`, `tx.wait()`, the two reads after it and
the clock `Math.floor(Date.now()/1000)` of line 57. -/
structure ApproveReads where
  getTransaction : Except String TxInfo
  isApproved : Except String Bool
  approve : Except String String
  wait : Except String Unit
  getTransactionAfter : Except String TxInfo
  canExecuteAfter : Except String (Bool × String)
  now : Nat

/-- The line of `approve.js` that asks for a further approval (line 62). -/
def needMoreLine : String := "\n🟡 1명 더 승인 필요"

/-- The line of `approve.js` for a proposal waiting on its timelock (line 59). -/
def approveTimelockLine (remaining : Int) : String :=
  "\n⏱️ 타임락 대기 중: " ++ toString remaining ++ "초 후 실행 가능"

/-- The closing notice of `approve.js` (lines 53-64). -/
def approveNotice (txId : Nat) (canExec : Bool) (txInfoAfter : TxInfo) (now : Nat) :
    List Event :=
  if canExec then
    [Event.log "\n🟢 이제 실행 가능!",
     Event.log ("   👉 node scripts/execute.js " ++ toString txId)]
  else if txInfoAfter.approvals ≥ 2 then
    let remaining : Int := (txInfoAfter.timelockUntil : Int) - (now : Int)
    if remaining > 0 then [Event.log (approveTimelockLine remaining)] else []
  else
    [Event.log needMoreLine,
     Event.log "   (.env에서 조원 키로 변경 후 다시 실행)"]

/-- The body of `main` in `approve.js` from line 22 on, for a parsed id and
the address of the signer. -/
def approveMain (formatEther : Nat → String) (txId : Nat) (address : String)
    (r : ApproveReads) : List Event :=
  await r.getTransaction fun txInfo =>
  await r.isApproved fun alreadyApproved =>
  [Event.log bar, Event.log "✅ 거래 승인", Event.log bar,
   Event.log ("거래 ID: " ++ toString txId),
   Event.log ("금액: " ++ formatEther txInfo.value ++ " ETH"),
   Event.log ("현재 승인: " ++ toString txInfo.approvals ++ " / 2"),
   Event.log ("승인자: " ++ address.take 10 ++ "...")] ++
  if alreadyApproved then
    [Event.log "\n⚠️ 이미 승인한 거래입니다!"]
  else if txInfo.executed then
    [Event.log "\n⚠️ 이미 실행된 거래입니다!"]
  else
    Event.send (Tx.approve txId) ::
    await r.approve fun _ =>
    Event.log "\n⏳ 승인 중..." ::
    await r.wait fun _ =>
    await r.getTransactionAfter fun txInfoAfter =>
    await r.canExecuteAfter fun (canExec, _) =>
    [Event.log "\n✅ 승인 완료!",
     Event.log ("   현재 승인: " ++ toString txInfoAfter.approvals ++ " / 2")] ++
    approveNotice txId canExec txInfoAfter r.now

/-! ## `approve_ticket.js` -/

/-- What the calls of `approve_ticket.js` return in one run. -/
structure ApproveTicketReads where
  getTicketInfo : Except String TicketInfo
  getApprovalStatus : Except String Bool
  approveTicket : Except String Unit
  getTicketInfoAfter : Except String TicketInfo
  now : Nat

/-- The `catch` handler of `approve_ticket.js` (line 74). -/
def approveTicketCatch (e : String) : List Event :=
  [Event.error ("\n❌ 오류 발생: " ++ e)]

/-- The closing notice of `approve_ticket.js` (lines 58-71). -/
def approveTicketNotice (newInfo : TicketInfo) (now : Nat) : List Event :=
  if newInfo.status = 1 then
    let timelock := newInfo.timelockUntil
    if timelock > 0 then
      let remaining : Int := (timelock : Int) - (now : Int)
      if remaining > 0 then
        [Event.log ("\n⏱️ 타임락 시작! 약 " ++ toString remaining ++ "초 후 실행 가능")]
      else []
    else
      [Event.log "\n🟢 타임락 없음. 즉시 실행 가능!"]
  else if newInfo.approvals < newInfo.requiredApprovals then
    [Event.log "\n🟡 추가 승인이 필요합니다."]
  else []

/-- The body of `main` in `approve_ticket.js` from line 15 on; `approveTicket`
is `ticket.approveTicket(tokenId)` followed by `tx.wait()`. -/
def approveTicketMain (tokenId : String) (address : String) (r : ApproveTicketReads) :
    List Event :=
  [Event.log bar, Event.log "🎫 NFT 티켓 승인", Event.log bar,
   Event.log ("티켓 ID: " ++ tokenId),
   Event.log ("승인자: " ++ address)] ++
  awaitTry r.getTicketInfo approveTicketCatch fun info =>
  Event.log ("현재 승인 상태: " ++ toString info.approvals ++ " / " ++
    toString info.requiredApprovals) ::
  awaitTry r.getApprovalStatus approveTicketCatch fun hasApproved =>
  if hasApproved then
    [Event.log "\n⚠️ 이미 승인한 티켓입니다!"]
  else
    Event.log "\n⏳ 승인 트랜잭션 전송 중..." :: Event.send (Tx.approveTicket tokenId) ::
    awaitTry r.approveTicket approveTicketCatch fun _ =>
    awaitTry r.getTicketInfoAfter approveTicketCatch fun newInfo =>
    [Event.log "✅ 승인 완료!",
     Event.log ("   최종 승인 상태: " ++ toString newInfo.approvals ++ " / " ++
       toString newInfo.requiredApprovals)] ++
    approveTicketNotice newInfo r.now

/-! ## `execute_ticket.js` -/

/-- What the calls of `execute_ticket.js` return in one run; `executeTicket`
is `ticket.executeTicket(tokenId, resultMsg)` followed by `tx.wait()`. -/
structure ExecuteTicketReads where
  isExecutable : Except String (Bool × String)
  getTicketInfo : Except String TicketInfo
  now : Nat
  executeTicket : Except String Unit
  ownerOf : Except String String

/-- The message recorded with the execution (line 16):
`args[1] || "작업 완료"`; an absent or empty second argument is falsy. -/
def resultMsg (args : List String) : String :=
  match args.get? 1 with
  | some m => if m = "" then "작업 완료" else m
  | none => "작업 완료"

/-- The line of `execute_ticket.js` for an `isExecutable` answer of false (line 36). -/
def notExecutableLine (reason : String) : String :=
  "❌ 실행 불가: " ++ reason

/-- The line of `execute_ticket.js` with the remaining timelock (line 42). -/
def ticketTimelockLine (remaining : Int) : String :=
  "   ⏳ 타임락 대기 중: 약 " ++ toString remaining ++ "초 남음"

/-- The line of the first `catch` of `execute_ticket.js` (line 48). -/
def lookupFailedLine : String :=
  "❌ 티켓 조회 실패 (이미 소각되었거나 존재하지 않음)"

/-- The warning of `execute_ticket.js` when `ownerOf` still answers (line 64). -/
def notBurnedLine : String := "⚠️ 경고: 소각되지 않은 것 같습니다."

/-- The confirmation of `execute_ticket.js` when `ownerOf` fails (line 66). -/
def burnedLine : String :=
  "🎉 확인 완료: 해당 토큰ID 조회 불가 (정상적으로 소각됨)"

/-- The line of `execute_ticket.js` after `executeTicket` was mined (line 59). -/
def executedLine : String := "\n✅ 실행 완료! NFT가 소각되었습니다."

/-- The function `main` of `execute_ticket.js` on its argument list. -/
def executeTicketMain (args : List String) (r : ExecuteTicketReads) : List Event :=
  match args with
  | [] =>
    [Event.log "사용법: node scripts/execute_ticket.js <티켓ID> [결과메시지]",
     Event.log "예시: node scripts/execute_ticket.js 0 \"방화벽 포트 8080 오픈 완료\""]
  | tokenId :: _ =>
    [Event.log bar, Event.log "🔥 NFT 티켓 실행 및 소각", Event.log bar,
     Event.log ("티켓 ID: " ++ tokenId)] ++
    awaitTry r.isExecutable (fun _ => [Event.log lookupFailedLine]) fun (executable, reason) =>
    if !executable then
      Event.log (notExecutableLine reason) ::
      if reason = "Timelock not expired" then
        awaitTry r.getTicketInfo (fun _ => [Event.log lookupFailedLine]) fun info =>
        let remaining : Int := (info.timelockUntil : Int) - (r.now : Int)
        [Event.log (ticketTimelockLine remaining)]
      else []
    else
      Event.log ("실행 결과 기록: \"" ++ resultMsg args ++ "\"") ::
      Event.log "\n⏳ 트랜잭션 전송 중... (실행 + 소각)" ::
      Event.send (Tx.executeTicket tokenId (resultMsg args)) ::
      await r.executeTicket fun _ =>
      Event.log executedLine ::
      match r.ownerOf with
      | Except.ok _ => [Event.log notBurnedLine]
      | Except.error _ => [Event.log burnedLine]

/-! ## `status.js` -/

/-- The names `status.js` indexes with the level of a proposal (line 53). -/
def levelNames : List String := ["L1", "L2", "L3"]

/-- The status word of a listed proposal (lines 55-59). -/
def statusWord (tx : TxInfo) (canExec : Bool) : String :=
  if tx.executed then "✅ 실행완료"
  else if tx.cancelled then "❌ 취소됨"
  else if canExec then "🟢 실행가능"
  else "🟡 대기중"

/-- The countdown line of `status.js` (line 69). -/
def countdownLine (remaining : Int) : String :=
  "     타임락: " ++ toString remaining ++ "초 남음"

/-- One turn of the proposal loop of `status.js` (lines 51-73), for the
answers of `getTransaction(i)` and `canExecute(i)`; `now1` and `now2` are the
two clock readings of lines 67 and 68. -/
def statusEntry (formatEther : Nat → String) (i : Nat) (tx : TxInfo) (canExec : Bool)
    (reason : String) (now1 now2 : Nat) : List Event :=
  [Event.log ("\n   [거래 #" ++ toString i ++ "] " ++ statusWord tx canExec),
   Event.log ("     금액: " ++ formatEther tx.value ++ " ETH (" ++
     (levelNames.get? tx.level).getD "undefined" ++ ")"),
   Event.log ("     설명: " ++ tx.description),
   Event.log ("     승인: " ++ toString tx.approvals ++ "/2")] ++
  if !tx.executed && !tx.cancelled then
    if tx.approvals ≥ 2 ∧ tx.timelockUntil > now1 then
      let remaining : Int := (tx.timelockUntil : Int) - (now2 : Int)
      [Event.log (countdownLine remaining)]
    else if !canExec then
      [Event.log ("     상태: " ++ reason)]
    else []
  else []

/-! ## `pause.js` -/

/-- What the calls of `pause.js` return in one run: the flag before, the
call `vault.pause()` or `vault.unpause()`, `tx.wait()` and the flag after. -/
structure PauseReads where
  paused : Except String Bool
  submit : Except String String
  wait : Except String Unit
  pausedAfter : Except String Bool

/-- The wording of the pause flag (lines 27 and 45). -/
def pausedWord (flag : Bool) : String :=
  if flag then "🔴 정지됨" else "🟢 정상"

/-- The function `main` of `pause.js` on its argument list. -/
def pauseMain (args : List String) (r : PauseReads) : List Event :=
  match args with
  | [] => [Event.log "사용법: node scripts/pause.js <on|off>"]
  | action :: _ =>
    if !(["on", "off"].contains action) then
      [Event.log "사용법: node scripts/pause.js <on|off>"]
    else
      await r.paused fun currentPaused =>
      [Event.log bar, Event.log "🚨 비상정지", Event.log bar,
       Event.log ("현재 상태: " ++ pausedWord currentPaused),
       Event.log ("요청: " ++ if action = "on" then "정지 활성화" else "정지 해제")] ++
      if action = "on" ∧ currentPaused = true then
        [Event.log "\n⚠️ 이미 정지 상태!"]
      else if action = "off" ∧ currentPaused = false then
        [Event.log "\n⚠️ 이미 정상 상태!"]
      else
        Event.send (if action = "on" then Tx.pause else Tx.unpause) ::
        await r.submit fun _ =>
        Event.log "\n⏳ 처리 중..." ::
        await r.wait fun _ =>
        await r.pausedAfter fun newPaused =>
        [Event.log "\n✅ 완료!", Event.log ("   새 상태: " ++ pausedWord newPaused)]

/-! ## `propose.js`, the whole script -/

/-- The value of a decimal digit. -/
def digitValue (c : Char) : Nat := c.toNat - 48

/-- The number a list of decimal digits denotes. -/
def digitsValue (cs : List Char) : Nat :=
  cs.foldl (fun n c => 10 * n + digitValue c) 0

/-- The library call `ethers.parseEther`, the amount in wei of a decimal
string of ether: an optional minus sign, digits, an optional point and
digits, with at least one digit and nothing but zeros after the eighteenth
decimal; `none` when the call throws. -/
def parseEther (s : String) : Option Int :=
  let (negative, cs) :=
    match s.data with
    | '-' :: rest => (true, rest)
    | cs => (false, cs)
  let whole := cs.takeWhile Char.isDigit
  let decimal : Option (List Char) :=
    match cs.dropWhile Char.isDigit with
    | [] => some []
    | '.' :: ds => if ds.all Char.isDigit then some ds else none
    | _ => none
  match decimal with
  | none => none
  | some ds =>
    if whole.length + ds.length = 0 then none
    else if !((ds.drop 18).all (fun c => c = '0')) then none
    else
      let wei := digitsValue (whole ++ ds.take 18 ++ List.replicate (18 - ds.length) '0')
      some (if negative then - (wei : Int) else (wei : Int))

/-- The record `vault.getLimits()` returns, with the fields the scripts read. -/
structure Limits where
  l1Threshold : Nat
  l2Threshold : Nat
  txLimit : Nat
  dailyLimit : Nat
  deriving DecidableEq

/-- What the calls of `propose.js` return in one run. -/
structure ProposeReads where
  getLimits : Except String Limits
  proposeETH : Except String String
  wait : Except String Unit
  getTransactionCount : Except String Nat

/-- The usage text of `propose.js` (lines 9-19). -/
def proposeUsage : List String :=
  [bar,
   "사용법: node scripts/propose.js <받는주소> <금액ETH> <설명>",
   bar,
   "\n예시:",
   "  node scripts/propose.js 0x0000...0001 0.0003 \"사무용품\"  → L1 (즉시)",
   "  node scripts/propose.js 0x0000...0001 0.0008 \"장비구매\"   → L2 (30초)",
   "  node scripts/propose.js 0x0000...0001 0.0015 \"서버구매\"   → L3 (60초)",
   "\n등급 기준:",
   "  L1: 0.0005 ETH 이하 → 타임락 없음",
   "  L2: 0.0005~0.001 ETH → 타임락 1분 30초",
   "  L3: 0.001~0.002 ETH → 타임락 2분"]

/-- The identifier a script reports after a creation: the count read after
it, less one (`txCount - 1n`, `totalSupply - 1n`). -/
def reportedId (count : Nat) : Int := (count : Int) - 1

/-- The function `main` of `propose.js` on its argument list. -/
def proposeMain (args : List String) (r : ProposeReads) : List Event :=
  match args with
  | dest :: amountStr :: description :: _ =>
    match parseEther amountStr with
    | none => [Event.error "invalid FixedNumber string value"]
    | some amount =>
      await r.getLimits fun limits =>
      [Event.log bar, Event.log "📝 ETH 지출 제안", Event.log bar,
       Event.log ("받는 주소: " ++ dest),
       Event.log ("금액: " ++ amountStr ++ " ETH"),
       Event.log ("등급: " ++ level amount limits.l1Threshold limits.l2Threshold),
       Event.log ("설명: " ++ description),
       Event.send (Tx.proposeETH dest amount description)] ++
      await r.proposeETH fun hash =>
      Event.log "\n⏳ 제안 중..." ::
      await r.wait fun _ =>
      await r.getTransactionCount fun txCount =>
      let txId := reportedId txCount
      [Event.log "\n✅ 제안 완료!",
       Event.log ("   거래 ID: " ++ toString txId),
       Event.log ("   TX: " ++ hash),
       Event.log ("\n👉 다음 단계: node scripts/approve.js " ++ toString txId)]
  | _ => proposeUsage.map Event.log

/-! ## `mint_ticket.js` -/

/-- The value of a digit in a radix of at most 16, if it is one. -/
def radixDigit (radix : Nat) (c : Char) : Option Nat :=
  let v : Option Nat :=
    if c.isDigit then some (c.toNat - 48)
    else if 'a'.toNat ≤ c.toNat ∧ c.toNat ≤ 'f'.toNat then some (c.toNat - 87)
    else if 'A'.toNat ≤ c.toNat ∧ c.toNat ≤ 'F'.toNat then some (c.toNat - 55)
    else none
  match v with
  | some d => if d < radix then some d else none
  | none => none

/-- The longest prefix of digits of a radix, as the number it denotes;
`none` when the prefix is empty. -/
def radixPrefix (radix : Nat) : List Char → Option Nat → Option Nat
  | [], acc => acc
  | c :: cs, acc =>
    match radixDigit radix c with
    | some d => radixPrefix radix cs (some (radix * acc.getD 0 + d))
    | none => acc

/-- The built-in `parseInt` with one argument: leading white space is
skipped, a sign and a `0x` prefix are read, then the longest prefix of digits;
`none` is `NaN`.  The result is exact below `2^53`. -/
def parseInt (s : String) : Option Int :=
  let cs := s.data.dropWhile Char.isWhitespace
  let (negative, cs) :=
    match cs with
    | '-' :: rest => (true, rest)
    | '+' :: rest => (false, rest)
    | cs => (false, cs)
  let (radix, cs) :=
    match cs with
    | '0' :: 'x' :: rest => (16, rest)
    | '0' :: 'X' :: rest => (16, rest)
    | cs => (10, cs)
  match radixPrefix radix cs none with
  | none => none
  | some n => some (if negative then - (n : Int) else (n : Int))

/-- The names `mint_ticket.js` indexes with the severity (line 24). -/
def severityNames : List String := ["LOW", "MEDIUM", "HIGH", "CRITICAL"]

/-- An array of names indexed with a JavaScript number: `undefined`, printed
as such, outside the array. -/
def indexed (names : List String) (i : Option Int) : String :=
  match i with
  | some (Int.ofNat n) => (names.get? n).getD "undefined"
  | _ => "undefined"

/-- The usage text of `mint_ticket.js` (lines 9-18). -/
def mintUsage : List String :=
  [bar,
   "사용법: node scripts/mint_ticket.js <변경내용> <중요도>",
   bar,
   "\n중요도:",
   "  0 = LOW (타임락 없음)",
   "  1 = MEDIUM (타임락 30초)",
   "  2 = HIGH (타임락 60초)",
   "  3 = CRITICAL (타임락 90초)",
   "\n예시:",
   "  node scripts/mint_ticket.js \"방화벽 규칙 변경\" 1"]

/-- What the calls of `mint_ticket.js` return in one run. -/
structure MintTicketReads where
  mintTicket : Except String String
  wait : Except String Unit
  totalSupply : Except String Nat

/-- The function `main` of `mint_ticket.js` on its argument list, for the
address of the signer. -/
def mintTicketMain (args : List String) (address : String) (r : MintTicketReads) :
    List Event :=
  match args with
  | changeScope :: severityStr :: _ =>
    let severity := parseInt severityStr
    [Event.log bar, Event.log "🎫 NFT 티켓 발행", Event.log bar,
     Event.log ("변경 내용: " ++ changeScope),
     Event.log ("중요도: " ++ indexed severityNames severity),
     Event.send (Tx.mintTicket address changeScope severity)] ++
    await r.mintTicket fun hash =>
    Event.log "\n⏳ 발행 중..." ::
    await r.wait fun _ =>
    await r.totalSupply fun totalSupply =>
    let tokenId := reportedId totalSupply
    [Event.log "\n✅ 발행 완료!",
     Event.log ("   티켓 ID: " ++ toString tokenId),
     Event.log ("   TX: " ++ hash)]
  | _ => mintUsage.map Event.log

/-! ## `demo_full.js` and `deploy.js` -/

/-- The names `demo_full.js` indexes with the role of the signer (line 42). -/
def roleNames : List String := ["None", "Auditor", "Operator", "Owner"]

/-- The names `demo_full.js` indexes with the level of a proposal (line 63). -/
def demoLevelNames : List String := ["L1(일반)", "L2(고액)", "L3(거버넌스)"]

/-- The names `demo_full.js` indexes with the severity of a ticket (line 99). -/
def demoSeverityNames : List String := ["LOW", "MEDIUM", "HIGH", "CRITICAL"]

/-- The names `demo_full.js` indexes with the status of a ticket (line 100). -/
def demoStatusNames : List String := ["대기", "승인됨", "실행가능", "실행완료", "만료", "취소"]

/-- The heading of the third step of `demo_full.js` (line 46). -/
def demoProposeHeading : String := "\n[3] ETH 지출 제안 (L1 - 0.01 ETH)"

/-- The amount string `demo_full.js` hands to `ethers.parseEther` (line 50). -/
def demoAmount : String := "0.01"

/-- The settings banner of `deploy.js` (lines 61-65). -/
def deployBanner : List String :=
  ["\n⚙️ 시연용 설정:",
   "   • L1: 0.0005 ETH 이하, 타임락 없음",
   "   • L2: 0.0005 ~ 0.001 ETH, 타임락 30초",
   "   • L3: 0.001 ~ 0.002 ETH, 타임락 60초",
   "   • 쿼럼: 모두 2-of-3"]

/-! ## The contracts, from the specification

`MultiSigTreasury.sol` and `ChangeTicket.sol` are not among the sources.  The
two state machines below follow sections 3, 4 and 7 of the specification and
are used only where a property is about what the contracts answer. -/

/-- Modelled from the spec: the error kinds of section 7 (the contracts that
raise them are not among the sources). -/
inductive Error where
  | Unauthorized
  | Paused
  | LimitExceeded
  | AlreadyApproved
  | AlreadyFinalized
  | NotReady
  | InsufficientFunds
  | NotFound
  deriving DecidableEq

/-- Modelled from the spec: the name of an error kind, as the message a
script receives when a call is rejected with it. -/
def Error.text : Error → String
  | Error.Unauthorized => "Unauthorized"
  | Error.Paused => "Paused"
  | Error.LimitExceeded => "LimitExceeded"
  | Error.AlreadyApproved => "AlreadyApproved"
  | Error.AlreadyFinalized => "AlreadyFinalized"
  | Error.NotReady => "NotReady"
  | Error.InsufficientFunds => "InsufficientFunds"
  | Error.NotFound => "NotFound"

/-- The answer of a contract call as a script receives it. -/
def received {α β : Type} (f : α → β) : Except Error α → Except String β
  | Except.ok a => Except.ok (f a)
  | Except.error e => Except.error e.text

namespace Ledger

/-- Modelled from the spec: the roles of section 3, in their order. -/
inductive Role where
  | None
  | Auditor
  | Operator
  | Owner
  deriving DecidableEq

/-- Modelled from the spec: the risk tiers of a disbursement. -/
inductive Level where
  | L1
  | L2
  | L3
  deriving DecidableEq

/-- The numeric code of a tier, in the order of the enumeration. -/
def Level.code : Level → Nat
  | Level.L1 => 0
  | Level.L2 => 1
  | Level.L3 => 2

/-- Modelled from the spec: the configuration block of the Treasury Ledger
(thresholds, per-transaction cap, daily cap, quorum size, timelock durations). -/
structure Config where
  l1Threshold : Nat
  l2Threshold : Nat
  txLimit : Nat
  dailyLimit : Nat
  quorum : Nat
  timelockDuration : Level → Nat

/-- Modelled from the spec: a disbursement proposal (section 3); its
identifier is its position in the table. -/
structure Proposal where
  dest : String
  value : Nat
  description : String
  level : Level
  approvals : List String
  executed : Bool
  cancelled : Bool
  timelockUntil : Nat
  deriving DecidableEq

/-- Modelled from the spec: the state of the Treasury Ledger.  The daily
window is the calendar day `now / 86400`; `dailySpent` is the value executed
in the day `day`. -/
structure State where
  roles : String → Role
  paused : Bool
  balance : Nat
  proposals : List Proposal
  day : Nat
  dailySpent : Nat

/-- Modelled from the spec: `Level` from the static thresholds, a boundary
value belonging to the lower tier. -/
def levelOf (cfg : Config) (value : Nat) : Level :=
  if value ≤ cfg.l1Threshold then Level.L1
  else if value ≤ cfg.l2Threshold then Level.L2
  else Level.L3

/-- Modelled from the spec: the value already counted in the daily window
that holds `now`. -/
def spentToday (s : State) (now : Nat) : Nat :=
  if now / 86400 = s.day then s.dailySpent else 0

/-- Modelled from the spec: the gate `canExecute` reports, `ready` when all
four pass. -/
inductive Reason where
  | ready
  | paused
  | finalized
  | quorum
  | timelock
  deriving DecidableEq

/-- Modelled from the spec: the four gates of `canExecute` on a proposal, in
the order (1) not paused, (2) not executed/cancelled, (3) approval count at
least the quorum, (4) `now ≥ timelockUntil`; the answer names the first gate
that fails. -/
def gates (cfg : Config) (paused : Bool) (p : Proposal) (now : Nat) : Bool × Reason :=
  if paused then (false, Reason.paused)
  else if p.executed || p.cancelled then (false, Reason.finalized)
  else if p.approvals.length < cfg.quorum then (false, Reason.quorum)
  else if now < p.timelockUntil then (false, Reason.timelock)
  else (true, Reason.ready)

/-- Modelled from the spec: the read `canExecute(proposalId)`. -/
def canExecute (cfg : Config) (s : State) (id : Nat) (now : Nat) :
    Except Error (Bool × Reason) :=
  match s.proposals.get? id with
  | none => Except.error Error.NotFound
  | some p => Except.ok (gates cfg s.paused p now)

/-- Modelled from the spec: the read `getTransaction(proposalId)`. -/
def getTransaction (s : State) (id : Nat) : Except Error Proposal :=
  match s.proposals.get? id with
  | none => Except.error Error.NotFound
  | some p => Except.ok p

/-- The record a script receives for a proposal. -/
def Proposal.info (p : Proposal) : TxInfo :=
  { dest := p.dest, value := p.value, description := p.description,
    level := p.level.code, approvals := p.approvals.length,
    executed := p.executed, cancelled := p.cancelled,
    timelockUntil := p.timelockUntil }

/-- Modelled from the spec: `propose(to, value, description)`. -/
def propose (cfg : Config) (s : State) (caller : String) (now : Nat)
    (dest : String) (value : Nat) (description : String) : Except Error State :=
  if s.roles caller ≠ Role.Owner then Except.error Error.Unauthorized
  else if s.paused then Except.error Error.Paused
  else if value > cfg.txLimit then Except.error Error.LimitExceeded
  else if spentToday s now + value > cfg.dailyLimit then Except.error Error.LimitExceeded
  else
    let p : Proposal :=
      { dest := dest, value := value, description := description,
        level := levelOf cfg value, approvals := [], executed := false,
        cancelled := false, timelockUntil := 0 }
    Except.ok { s with proposals := s.proposals ++ [p] }

/-- Modelled from the spec: `approve(proposalId)`.  The timelock is set when
the approval count reaches the quorum. -/
def approve (cfg : Config) (s : State) (caller : String) (now : Nat) (id : Nat) :
    Except Error State :=
  if s.roles caller ≠ Role.Owner then Except.error Error.Unauthorized
  else if s.paused then Except.error Error.Paused
  else match s.proposals.get? id with
    | none => Except.error Error.NotFound
    | some p =>
      if caller ∈ p.approvals then Except.error Error.AlreadyApproved
      else if p.executed || p.cancelled then Except.error Error.AlreadyFinalized
      else
        let approvals := p.approvals ++ [caller]
        let timelock := if approvals.length = cfg.quorum
          then now + cfg.timelockDuration p.level else p.timelockUntil
        let p1 : Proposal := { p with approvals := approvals, timelockUntil := timelock }
        Except.ok { s with proposals := s.proposals.set id p1 }

/-- Modelled from the spec: `execute(proposalId)`: the four gates, then the
balance; the value leaves the pooled balance and is counted in the daily
window. -/
def execute (cfg : Config) (s : State) (caller : String) (now : Nat) (id : Nat) :
    Except Error State :=
  if s.roles caller ≠ Role.Owner then Except.error Error.Unauthorized
  else match s.proposals.get? id with
    | none => Except.error Error.NotFound
    | some p =>
      match gates cfg s.paused p now with
      | (false, Reason.paused) => Except.error Error.Paused
      | (false, Reason.finalized) => Except.error Error.AlreadyFinalized
      | (false, _) => Except.error Error.NotReady
      | (true, _) =>
        if s.balance < p.value then Except.error Error.InsufficientFunds
        else Except.ok
          { s with
            balance := s.balance - p.value
            proposals := s.proposals.set id { p with executed := true }
            day := now / 86400
            dailySpent := spentToday s now + p.value }

/-- Modelled from the spec: `cancel(proposalId)`. -/
def cancel (s : State) (caller : String) (id : Nat) : Except Error State :=
  if s.roles caller ≠ Role.Owner then Except.error Error.Unauthorized
  else match s.proposals.get? id with
    | none => Except.error Error.NotFound
    | some p =>
      if p.executed || p.cancelled then Except.error Error.AlreadyFinalized
      else Except.ok { s with proposals := s.proposals.set id { p with cancelled := true } }

/-- Modelled from the spec: `pause()` and `unpause()`, by the flag they set. -/
def setPaused (s : State) (caller : String) (flag : Bool) : Except Error State :=
  if s.roles caller ≠ Role.Owner then Except.error Error.Unauthorized
  else Except.ok { s with paused := flag }

/-- Modelled from the spec: the grant of a role by an owner. -/
def grant (s : State) (caller : String) (who : String) (role : Role) : Except Error State :=
  if s.roles caller ≠ Role.Owner then Except.error Error.Unauthorized
  else Except.ok { s with roles := fun a => if a = who then role else s.roles a }

/-- Modelled from the spec: the mutating operations of the Treasury Ledger;
`deposit` is value sent to the treasury. -/
inductive Op where
  | propose (dest : String) (value : Nat) (description : String)
  | approve (id : Nat)
  | execute (id : Nat)
  | cancel (id : Nat)
  | pause
  | unpause
  | deposit (amount : Nat)
  | grant (who : String) (role : Role)

/-- A call: who makes it, the clock it sees, the operation. -/
structure Call where
  caller : String
  now : Nat
  op : Op

/-- Modelled from the spec: one operation by `caller` at time `now`. -/
def step (cfg : Config) (s : State) (c : Call) : Except Error State :=
  match c.op with
  | Op.propose dest value description => propose cfg s c.caller c.now dest value description
  | Op.approve id => approve cfg s c.caller c.now id
  | Op.execute id => execute cfg s c.caller c.now id
  | Op.cancel id => cancel s c.caller id
  | Op.pause => setPaused s c.caller true
  | Op.unpause => setPaused s c.caller false
  | Op.deposit amount => Except.ok { s with balance := s.balance + amount }
  | Op.grant who role => grant s c.caller who role

/-- Modelled from the spec: a failing operation leaves every field unchanged. -/
def apply (cfg : Config) (s : State) (c : Call) : State :=
  match step cfg s c with
  | Except.ok s1 => s1
  | Except.error _ => s

/-- The state after a sequence of calls, applied in order. -/
def run (cfg : Config) (s : State) (calls : List Call) : State :=
  calls.foldl (apply cfg) s

/-- What `execute.js` receives when its reads are answered from the state
`s`: `chainNow` is the clock of the contract, `now` the clock of the script,
`reasonText` the wording the contract gives each gate. -/
def executeReads (cfg : Config) (s : State) (id : Nat) (chainNow now : Nat)
    (reasonText : Reason → String) (execute : Except String String)
    (getBalanceAfter : Except String Nat) : ExecuteReads :=
  { canExecute := received (fun a => (a.1, reasonText a.2)) (canExecute cfg s id chainNow)
    getTransaction := received Proposal.info (getTransaction s id)
    now := now
    getBalance := Except.ok s.balance
    execute := execute
    getBalanceAfter := getBalanceAfter }

end Ledger

namespace Registry

/-- Modelled from the spec: the severities of a change ticket, in their order. -/
inductive Severity where
  | LOW
  | MEDIUM
  | HIGH
  | CRITICAL
  deriving DecidableEq

/-- The numeric code of a severity, in the order of the enumeration. -/
def Severity.code : Severity → Nat
  | Severity.LOW => 0
  | Severity.MEDIUM => 1
  | Severity.HIGH => 2
  | Severity.CRITICAL => 3

/-- Modelled from the spec: the statuses of a change ticket, in their order. -/
inductive Status where
  | Pending
  | Approved
  | Executable
  | Executed
  | Expired
  | Cancelled
  deriving DecidableEq

/-- The numeric code of a status, in the order of the enumeration. -/
def Status.code : Status → Nat
  | Status.Pending => 0
  | Status.Approved => 1
  | Status.Executable => 2
  | Status.Executed => 3
  | Status.Expired => 4
  | Status.Cancelled => 5

/-- Modelled from the spec: the terminal statuses. -/
def Status.terminal : Status → Bool
  | Status.Executed => true
  | Status.Expired => true
  | Status.Cancelled => true
  | _ => false

/-- Modelled from the spec: the static tables of the Change-Ticket Registry,
and the wording of the reasons `isExecutable` gives for a status that is
neither `Approved` nor `Executable` and for a ticket that is executable. -/
structure Config where
  requiredApprovals : Severity → Nat
  timelockDuration : Severity → Nat
  statusReason : String
  readyReason : String

/-- Modelled from the spec: a change ticket (section 3); its identifier is
its position in the table, `holder` is `none` once the token is destroyed. -/
structure Ticket where
  holder : Option String
  changeScope : String
  severity : Severity
  approvals : List String
  requiredApprovals : Nat
  status : Status
  timelockUntil : Nat
  resultMessage : String
  deriving DecidableEq

/-- Modelled from the spec: the state of the Change-Ticket Registry. -/
structure State where
  admin : String → Bool
  tickets : List Ticket

/-- Modelled from the spec: the gates of `isExecutable` on a ticket: the
status is `Approved` or `Executable`, and a timelock that is set has elapsed. -/
def gates (cfg : Config) (t : Ticket) (now : Nat) : Bool × String :=
  if t.status ≠ Status.Approved ∧ t.status ≠ Status.Executable then (false, cfg.statusReason)
  else if t.timelockUntil ≠ 0 ∧ now < t.timelockUntil then (false, "Timelock not expired")
  else (true, cfg.readyReason)

/-- Modelled from the spec: the read `isExecutable(ticketId)`. -/
def isExecutable (cfg : Config) (s : State) (id : Nat) (now : Nat) :
    Except Error (Bool × String) :=
  match s.tickets.get? id with
  | none => Except.error Error.NotFound
  | some t => Except.ok (gates cfg t now)

/-- Modelled from the spec: the ownership lookup, which fails for an unknown
identifier and for a destroyed token. -/
def ownerOf (s : State) (id : Nat) : Except Error String :=
  match s.tickets.get? id with
  | none => Except.error Error.NotFound
  | some t =>
    match t.holder with
    | none => Except.error Error.NotFound
    | some h => Except.ok h

/-- Modelled from the spec: the read `getTicketInfo(ticketId)`. -/
def getTicketInfo (s : State) (id : Nat) : Except Error Ticket :=
  match s.tickets.get? id with
  | none => Except.error Error.NotFound
  | some t => Except.ok t

/-- The record a script receives for a ticket. -/
def Ticket.info (t : Ticket) : TicketInfo :=
  { changeScope := t.changeScope, severity := t.severity.code, status := t.status.code,
    requiredApprovals := t.requiredApprovals, approvals := t.approvals.length,
    timelockUntil := t.timelockUntil }

/-- Modelled from the spec: `mintTicket(holder, changeScope, severity)`. -/
def mintTicket (cfg : Config) (s : State) (caller : String) (holder : String)
    (changeScope : String) (severity : Severity) : Except Error State :=
  if !s.admin caller then Except.error Error.Unauthorized
  else
    let t : Ticket :=
      { holder := some holder, changeScope := changeScope, severity := severity,
        approvals := [], requiredApprovals := cfg.requiredApprovals severity,
        status := Status.Pending, timelockUntil := 0, resultMessage := "" }
    Except.ok { s with tickets := s.tickets ++ [t] }

/-- Modelled from the spec: `approveTicket(ticketId)`.  When the count
reaches `requiredApprovals` the status becomes `Approved` with the timelock
set, or `Executable` when the duration of the severity is zero. -/
def approveTicket (cfg : Config) (s : State) (caller : String) (now : Nat) (id : Nat) :
    Except Error State :=
  if !s.admin caller then Except.error Error.Unauthorized
  else match s.tickets.get? id with
    | none => Except.error Error.NotFound
    | some t =>
      if caller ∈ t.approvals then Except.error Error.AlreadyApproved
      else if t.status.terminal then Except.error Error.AlreadyFinalized
      else
        let approvals := t.approvals ++ [caller]
        let t1 : Ticket :=
          if approvals.length = t.requiredApprovals then
            if cfg.timelockDuration t.severity = 0 then
              { t with approvals := approvals, status := Status.Executable }
            else
              { t with approvals := approvals, status := Status.Approved,
                       timelockUntil := now + cfg.timelockDuration t.severity }
          else { t with approvals := approvals }
        Except.ok { s with tickets := s.tickets.set id t1 }

/-- Modelled from the spec: `executeTicket(ticketId, resultMessage)`: records
the message, sets the status `Executed` and destroys the token. -/
def executeTicket (cfg : Config) (s : State) (now : Nat) (id : Nat)
    (resultMessage : String) : Except Error State :=
  match s.tickets.get? id with
  | none => Except.error Error.NotFound
  | some t =>
    if t.status.terminal then Except.error Error.AlreadyFinalized
    else if !(gates cfg t now).1 then Except.error Error.NotReady
    else
      let t1 : Ticket :=
        { t with holder := none, status := Status.Executed, resultMessage := resultMessage }
      Except.ok { s with tickets := s.tickets.set id t1 }

/-- Modelled from the spec: `cancel` and `expire`, by the terminal status
they set, from any status that is not terminal. -/
def retire (s : State) (caller : String) (id : Nat) (status : Status) : Except Error State :=
  if !s.admin caller then Except.error Error.Unauthorized
  else match s.tickets.get? id with
    | none => Except.error Error.NotFound
    | some t =>
      if t.status.terminal then Except.error Error.AlreadyFinalized
      else Except.ok { s with tickets := s.tickets.set id { t with status := status } }

/-- Modelled from the spec: the grant of the admin capability by an admin. -/
def grantRole (s : State) (caller : String) (who : String) : Except Error State :=
  if !s.admin caller then Except.error Error.Unauthorized
  else Except.ok { s with admin := fun a => if a = who then true else s.admin a }

/-- Modelled from the spec: the mutating operations of the Change-Ticket
Registry. -/
inductive Op where
  | mintTicket (holder : String) (changeScope : String) (severity : Severity)
  | approveTicket (id : Nat)
  | executeTicket (id : Nat) (resultMessage : String)
  | cancel (id : Nat)
  | expire (id : Nat)
  | grantRole (who : String)

/-- A call: who makes it, the clock it sees, the operation. -/
structure Call where
  caller : String
  now : Nat
  op : Op

/-- Modelled from the spec: one operation by `caller` at time `now`. -/
def step (cfg : Config) (s : State) (c : Call) : Except Error State :=
  match c.op with
  | Op.mintTicket holder changeScope severity =>
    mintTicket cfg s c.caller holder changeScope severity
  | Op.approveTicket id => approveTicket cfg s c.caller c.now id
  | Op.executeTicket id resultMessage => executeTicket cfg s c.now id resultMessage
  | Op.cancel id => retire s c.caller id Status.Cancelled
  | Op.expire id => retire s c.caller id Status.Expired
  | Op.grantRole who => grantRole s c.caller who

/-- Modelled from the spec: a failing operation leaves every field unchanged. -/
def apply (cfg : Config) (s : State) (c : Call) : State :=
  match step cfg s c with
  | Except.ok s1 => s1
  | Except.error _ => s

/-- The state after a sequence of calls, applied in order. -/
def run (cfg : Config) (s : State) (calls : List Call) : State :=
  calls.foldl (apply cfg) s

/-- What `execute_ticket.js` receives when its calls are answered by the
registry: the reads before the transaction from the state `s` at `readNow`,
the transaction itself at `txNow`, and `ownerOf` from the state left by the
transaction followed by the calls `later` of other clients. -/
def executeTicketReads (cfg : Config) (s : State) (caller : String) (id : Nat)
    (resultMessage : String) (readNow txNow now : Nat) (later : List Call) :
    ExecuteTicketReads :=
  { isExecutable := received (fun a => a) (isExecutable cfg s id readNow)
    getTicketInfo := received Ticket.info (getTicketInfo s id)
    now := now
    executeTicket := received (fun _ => ()) (executeTicket cfg s txNow id resultMessage)
    ownerOf := received (fun a => a)
      (ownerOf (run cfg (apply cfg s ⟨caller, txNow, Op.executeTicket id resultMessage⟩) later)
        id) }

end Registry

/-! ## Observations on a run -/

/-- The contract state after a run: a run changes it only through the
transactions it sends, whatever `step` a transaction performs. -/
def effect {σ : Type} (step : σ → Tx → σ) (s : σ) (t : List Event) : σ :=
  (sent t).foldl step s

/-- The run reports the treasury balance as insufficient. -/
def reportsInsufficient (t : List Event) : Prop :=
  Event.log insufficientLine ∈ t

/-- The run reports that the proposal cannot be executed, with some reason. -/
def reportsCannotExecute (t : List Event) : Prop :=
  ∃ reason, Event.log (cannotExecuteLine reason) ∈ t

/-- The run reports that the timelock is still running. -/
def reportsTimelockWait (t : List Event) : Prop :=
  ∃ remaining, Event.log (timelockWaitLine remaining) ∈ t

/-! ## Sample data -/

/-- A ledger configuration with the reference thresholds (in wei) and a
quorum of three. -/
def Ledger.quorumThree : Ledger.Config :=
  { l1Threshold := 500000000000000, l2Threshold := 1000000000000000,
    txLimit := 2000000000000000, dailyLimit := 10000000000000000, quorum := 3,
    timelockDuration := fun l =>
      match l with
      | Ledger.Level.L1 => 0
      | Ledger.Level.L2 => 90
      | Ledger.Level.L3 => 120 }

/-- A pending proposal of 0.0004 ETH that two owners have approved. -/
def Ledger.twoApprovals : Ledger.Proposal :=
  { dest := "0x0000000000000000000000000000000000000003", value := 400000000000000,
    description := "office supplies", level := Ledger.Level.L1,
    approvals := ["0x79722aCD6bd0aB02E4Bf59dd72d605357Bb18999",
                  "0x451A5493Eb07f707e208350d0A1e0cd277Cac0ba"],
    executed := false, cancelled := false, timelockUntil := 0 }

/-- The record of a cancelled proposal that one owner had approved. -/
def cancelledProposal : TxInfo :=
  { dest := "0x0000000000000000000000000000000000000003", value := 400000000000000,
    description := "office supplies", level := 0, approvals := 1,
    executed := false, cancelled := true, timelockUntil := 0 }

/-- The record of a cancelled ticket (status code 5) with one approval. -/
def cancelledTicket : TicketInfo :=
  { changeScope := "firewall rule", severity := 1, status := 5,
    requiredApprovals := 2, approvals := 1, timelockUntil := 0 }

/-- A ledger whose only proposal has been executed. -/
def Ledger.paidOut : Ledger.State :=
  { roles := fun a =>
      if a = "0x79722aCD6bd0aB02E4Bf59dd72d605357Bb18999" then Ledger.Role.Owner
      else Ledger.Role.None
    paused := false
    balance := 600000000000000
    proposals := [{ Ledger.twoApprovals with executed := true }]
    day := 19675
    dailySpent := 400000000000000 }

/-- The registry tables of the reference deployment: two approvals for every
severity, timelocks of 0, 30, 60 and 90 seconds. -/
def Registry.tables : Registry.Config :=
  { requiredApprovals := fun _ => 2
    timelockDuration := fun v =>
      match v with
      | Registry.Severity.LOW => 0
      | Registry.Severity.MEDIUM => 30
      | Registry.Severity.HIGH => 60
      | Registry.Severity.CRITICAL => 90
    statusReason := "Not approved"
    readyReason := "" }

/-- A critical ticket with both approvals, its timelock ending at 1700000090. -/
def Registry.approvedTicket : Registry.Ticket :=
  { holder := some "0x79722aCD6bd0aB02E4Bf59dd72d605357Bb18999",
    changeScope := "firewall rule", severity := Registry.Severity.CRITICAL,
    approvals := ["0x79722aCD6bd0aB02E4Bf59dd72d605357Bb18999",
                  "0x451A5493Eb07f707e208350d0A1e0cd277Cac0ba"],
    requiredApprovals := 2, status := Registry.Status.Approved,
    timelockUntil := 1700000090, resultMessage := "" }

/-- A registry holding the approved ticket. -/
def Registry.oneApproved : Registry.State :=
  { admin := fun a => a = "0x79722aCD6bd0aB02E4Bf59dd72d605357Bb18999"
    tickets := [Registry.approvedTicket] }

/-- The registry after the approved ticket was executed with the message `done`. -/
def Registry.oneExecuted : Registry.State :=
  { admin := fun a => a = "0x79722aCD6bd0aB02E4Bf59dd72d605357Bb18999"
    tickets := [{ Registry.approvedTicket with
      holder := none, status := Registry.Status.Executed, resultMessage := "done" }] }

/-! ## Further reads and names of the contracts -/

/-- Modelled from the spec: the proposal counter, which `getTransactionCount()`
reads; identifiers are zero-based and sequential, so it is the size of the
proposal table. -/
def Ledger.getTransactionCount (s : Ledger.State) : Nat := s.proposals.length

/-- The operation creates a proposal. -/
def Ledger.Op.isPropose : Ledger.Op → Bool
  | Ledger.Op.propose _ _ _ => true
  | _ => false

/-- What `propose.js` receives when its calls are answered by the ledger: the
limits from the configuration, the transaction at `chainNow`, and the count
from the state left by the transaction followed by the calls `later` of other
clients.  A negative amount cannot be encoded and is rejected. -/
def Ledger.proposeReads (cfg : Ledger.Config) (s : Ledger.State) (caller : String)
    (chainNow : Nat) (dest : String) (amount : Int) (description : String) (hash : String)
    (later : List Ledger.Call) : ProposeReads :=
  { getLimits := Except.ok
      { l1Threshold := cfg.l1Threshold, l2Threshold := cfg.l2Threshold,
        txLimit := cfg.txLimit, dailyLimit := cfg.dailyLimit }
    proposeETH :=
      if amount < 0 then Except.error "INVALID_ARGUMENT"
      else received (fun _ => hash)
        (Ledger.propose cfg s caller chainNow dest amount.toNat description)
    wait := Except.ok ()
    getTransactionCount := Except.ok (Ledger.getTransactionCount
      (Ledger.run cfg
        (Ledger.apply cfg s ⟨caller, chainNow, Ledger.Op.propose dest amount.toNat description⟩)
        later)) }

/-- The numeric code of a role, in the order of the enumeration. -/
def Ledger.Role.code : Ledger.Role → Nat
  | Ledger.Role.None => 0
  | Ledger.Role.Auditor => 1
  | Ledger.Role.Operator => 2
  | Ledger.Role.Owner => 3

/-- The name of a role in the specification. -/
def Ledger.Role.name : Ledger.Role → String
  | Ledger.Role.None => "None"
  | Ledger.Role.Auditor => "Auditor"
  | Ledger.Role.Operator => "Operator"
  | Ledger.Role.Owner => "Owner"

/-- The name of a tier in the specification. -/
def Ledger.Level.name : Ledger.Level → String
  | Ledger.Level.L1 => "L1"
  | Ledger.Level.L2 => "L2"
  | Ledger.Level.L3 => "L3"

/-- The name of a severity in the specification. -/
def Registry.Severity.name : Registry.Severity → String
  | Registry.Severity.LOW => "LOW"
  | Registry.Severity.MEDIUM => "MEDIUM"
  | Registry.Severity.HIGH => "HIGH"
  | Registry.Severity.CRITICAL => "CRITICAL"

/-- The Korean word for a status of the specification: waiting, approved,
executable, execution completed, expired, cancelled. -/
def Registry.Status.korean : Registry.Status → String
  | Registry.Status.Pending => "대기"
  | Registry.Status.Approved => "승인됨"
  | Registry.Status.Executable => "실행가능"
  | Registry.Status.Executed => "실행완료"
  | Registry.Status.Expired => "만료"
  | Registry.Status.Cancelled => "취소"

/-! ## Further observations -/

/-- The notice of `approve_ticket.js` for a ticket without timelock (line 67). -/
def noTimelockLine : String := "\n🟢 타임락 없음. 즉시 실행 가능!"

/-- The notice of `approve_ticket.js` for a running timelock (line 64). -/
def timelockStartedLine (remaining : Int) : String :=
  "\n⏱️ 타임락 시작! 약 " ++ toString remaining ++ "초 후 실행 가능"

/-- The notice of `approve_ticket.js` when approvals are missing (line 70). -/
def moreApprovalsLine : String := "\n🟡 추가 승인이 필요합니다."

/-- The seconds a run of characters announces: every number directly followed
by `분` counts as minutes, every number directly followed by `초` as seconds;
`n` is the number read so far. -/
def secondsIn : List Char → Nat → Nat
  | [], _ => 0
  | c :: cs, n =>
    if c.isDigit then secondsIn cs (10 * n + digitValue c)
    else if c = '분' then 60 * n + secondsIn cs 0
    else if c = '초' then n + secondsIn cs 0
    else secondsIn cs 0

/-- The timelock a printed line announces, in seconds; a line that names no
minutes and no seconds (`즉시`, `타임락 없음`) announces none. -/
def announced (line : String) : Nat := secondsIn line.data 0

/-- The number of tickets ever minted, which is the identifier the next
ticket gets. -/
def Registry.minted (s : Registry.State) : Nat := s.tickets.length

/-- The number of tickets that still have a holder. -/
def Registry.live (s : Registry.State) : Nat :=
  (s.tickets.filter (fun t => t.holder.isSome)).length

/-- The rank of the tier a label of `propose.js` names: 1 for L1, 2 for L2,
3 for L3, and 0 for a text that is none of the three labels. -/
def tierRank (label : String) : Nat :=
  if label = "L1 (타임락 없음)" then 1
  else if label = "L2 (타임락 1분 30초)" then 2
  else if label = "L3 (타임락 2분)" then 3
  else 0

/-! ## Further sample data -/

/-- The ledger configuration of the reference deployment: thresholds of
0.0005 and 0.001 ETH in wei, a cap of 0.002 ETH a transaction, a quorum of
two, timelocks of 0, 90 and 120 seconds. -/
def Ledger.reference : Ledger.Config :=
  { l1Threshold := 500000000000000, l2Threshold := 1000000000000000,
    txLimit := 2000000000000000, dailyLimit := 10000000000000000, quorum := 2,
    timelockDuration := fun l =>
      match l with
      | Ledger.Level.L1 => 0
      | Ledger.Level.L2 => 90
      | Ledger.Level.L3 => 120 }

/-- A wording of the gates of `canExecute`. -/
def Ledger.reasonWords : Ledger.Reason → String
  | Ledger.Reason.ready => ""
  | Ledger.Reason.paused => "paused"
  | Ledger.Reason.finalized => "already executed or cancelled"
  | Ledger.Reason.quorum => "not enough approvals"
  | Ledger.Reason.timelock => "timelock"

/-- A proposal of 0.0008 ETH that reached the quorum of two at 1700000000,
its timelock of 90 seconds ending at 1700000090. -/
def Ledger.pendingL2 : Ledger.Proposal :=
  { dest := "0x0000000000000000000000000000000000000003", value := 800000000000000,
    description := "equipment", level := Ledger.Level.L2,
    approvals := ["0x79722aCD6bd0aB02E4Bf59dd72d605357Bb18999",
                  "0x451A5493Eb07f707e208350d0A1e0cd277Cac0ba"],
    executed := false, cancelled := false, timelockUntil := 1700000090 }

/-- A paused ledger holding the proposal whose timelock is running. -/
def Ledger.pausedPending : Ledger.State :=
  { roles := fun a =>
      if a = "0x79722aCD6bd0aB02E4Bf59dd72d605357Bb18999" then Ledger.Role.Owner
      else Ledger.Role.None
    paused := true
    balance := 5000000000000000
    proposals := [Ledger.pendingL2]
    day := 19675
    dailySpent := 0 }

/-- A ledger, not paused, without proposals, with one owner. -/
def Ledger.fresh : Ledger.State :=
  { roles := fun a =>
      if a = "0x79722aCD6bd0aB02E4Bf59dd72d605357Bb18999" then Ledger.Role.Owner
      else Ledger.Role.None
    paused := false
    balance := 5000000000000000
    proposals := []
    day := 19675
    dailySpent := 0 }

/-- A low-severity ticket, whose timelock duration is zero, with one of its
two approvals. -/
def Registry.lowTicket : Registry.Ticket :=
  { holder := some "0x79722aCD6bd0aB02E4Bf59dd72d605357Bb18999",
    changeScope := "log rotation", severity := Registry.Severity.LOW,
    approvals := ["0x79722aCD6bd0aB02E4Bf59dd72d605357Bb18999"],
    requiredApprovals := 2, status := Registry.Status.Pending,
    timelockUntil := 0, resultMessage := "" }

/-- A registry holding the low-severity ticket, with two admins. -/
def Registry.lowPending : Registry.State :=
  { admin := fun a => a = "0x79722aCD6bd0aB02E4Bf59dd72d605357Bb18999" ||
      a = "0x451A5493Eb07f707e208350d0A1e0cd277Cac0ba"
    tickets := [Registry.lowTicket] }

/-- What `approve_ticket.js` receives when its calls are answered by the
registry: the reads before the transaction from the state `s`, the
transaction at `chainNow`, and the record after it from the state it leaves. -/
def Registry.approveTicketReads (cfg : Registry.Config) (s : Registry.State)
    (caller : String) (id : Nat) (chainNow now : Nat) : ApproveTicketReads :=
  { getTicketInfo := received Registry.Ticket.info (Registry.getTicketInfo s id)
    getApprovalStatus := received (fun (t : Registry.Ticket) => decide (caller ∈ t.approvals))
      (Registry.getTicketInfo s id)
    approveTicket := received (fun _ => ()) (Registry.approveTicket cfg s caller chainNow id)
    getTicketInfoAfter := received Registry.Ticket.info
      (Registry.getTicketInfo
        (Registry.apply cfg s ⟨caller, chainNow, Registry.Op.approveTicket id⟩) id)
    now := now }

/-! ## Transactions of a run -/

@[simp] theorem sent_nil : sent [] = [] := rfl

@[simp] theorem sent_log (l : String) (es : List Event) :
    sent (Event.log l :: es) = sent es := rfl

@[simp] theorem sent_error (l : String) (es : List Event) :
    sent (Event.error l :: es) = sent es := rfl

@[simp] theorem sent_send (tx : Tx) (es : List Event) :
    sent (Event.send tx :: es) = tx :: sent es := rfl

@[simp] theorem sent_append (xs ys : List Event) : sent (xs ++ ys) = sent xs ++ sent ys := by
  induction xs with
  | nil => rfl
  | cons e es ih => cases e <;> simp [ih]

@[simp] theorem sent_approveNotice (txId : Nat) (canExec : Bool) (txInfoAfter : TxInfo)
    (now : Nat) : sent (approveNotice txId canExec txInfoAfter now) = [] := by
  unfold approveNotice
  dsimp only
  split_ifs <;> rfl

@[simp] theorem sent_approveTicketNotice (newInfo : TicketInfo) (now : Nat) :
    sent (approveTicketNotice newInfo now) = [] := by
  unfold approveTicketNotice
  dsimp only
  split_ifs <;> rfl

/-- The transactions of a run of `execute.js` whose reads all answered. -/
theorem executeMain_sends (formatEther : Nat → String) (txId : Nat) (canExec : Bool)
    (reason : String) (txInfo : TxInfo) (now balance : Nat)
    (execute : Except String String) (getBalanceAfter : Except String Nat) :
    sent (executeMain formatEther txId
      { canExecute := Except.ok (canExec, reason), getTransaction := Except.ok txInfo,
        now := now, getBalance := Except.ok balance, execute := execute,
        getBalanceAfter := getBalanceAfter })
    = if now ≥ txInfo.timelockUntil ∧ canExec = true ∧ balance ≥ txInfo.value
      then [Tx.execute txId] else [] := by
  cases execute <;> cases getBalanceAfter <;> cases canExec <;>
    simp [executeMain, await] <;> split_ifs <;> simp_all <;> omega

/-- The transactions of any run of `execute.js`, failing reads included. -/
theorem executeMain_sends_any (formatEther : Nat → String) (txId : Nat) (r : ExecuteReads) :
    sent (executeMain formatEther txId r) =
      match r.canExecute, r.getTransaction, r.getBalance with
      | Except.ok (true, _), Except.ok txInfo, Except.ok balance =>
        if r.now ≥ txInfo.timelockUntil ∧ balance ≥ txInfo.value then [Tx.execute txId] else []
      | _, _, _ => [] := by
  rcases r with ⟨ce, gt, now, gb, ex, ba⟩
  rcases ce with e | ⟨b, reason⟩
  · cases gt <;> cases gb <;> simp [executeMain, await]
  · rcases gt with e | txInfo
    · cases b <;> cases gb <;> simp [executeMain, await]
    · rcases gb with e | balance
      · cases b <;> simp [executeMain, await] <;> split_ifs <;> simp
      · have h := executeMain_sends formatEther txId b reason txInfo now balance ex ba
        rw [h]
        cases b <;> simp

/-- The transactions of any run of `approve.js`. -/
theorem approve_sends (formatEther : Nat → String) (txId : Nat) (address : String)
    (r : ApproveReads) :
    sent (approveMain formatEther txId address r) =
      match r.getTransaction, r.isApproved with
      | Except.ok txInfo, Except.ok false => if txInfo.executed then [] else [Tx.approve txId]
      | _, _ => [] := by
  unfold approveMain
  rcases r with ⟨gt, ia, ap, w, gta, cea, now⟩
  cases gt <;> cases ia <;> simp [await]
  rename_i txInfo b
  cases b <;> simp
  split_ifs <;> simp
  cases ap <;> simp [await]
  cases w <;> simp [await]
  cases gta <;> simp [await]
  cases cea <;> simp [await]

/-- The transactions of any run of `approve_ticket.js`. -/
theorem approveTicket_sends (tokenId address : String) (r : ApproveTicketReads) :
    sent (approveTicketMain tokenId address r) =
      match r.getTicketInfo, r.getApprovalStatus with
      | Except.ok _, Except.ok false => [Tx.approveTicket tokenId]
      | _, _ => [] := by
  unfold approveTicketMain
  rcases r with ⟨gt, ia, ap, gta, now⟩
  cases gt <;> cases ia <;> simp [awaitTry, approveTicketCatch]
  rename_i txInfo b
  cases b <;> simp
  cases ap <;> simp [awaitTry, approveTicketCatch]
  cases gta <;> simp [awaitTry, approveTicketCatch]

/-- The transactions of any run of `execute_ticket.js` with an argument. -/
theorem executeTicket_sends (tokenId : String) (rest : List String) (r : ExecuteTicketReads) :
    sent (executeTicketMain (tokenId :: rest) r) =
      match r.isExecutable with
      | Except.ok (true, _) => [Tx.executeTicket tokenId (resultMsg (tokenId :: rest))]
      | _ => [] := by
  unfold executeTicketMain
  rcases r with ⟨ie, gt, now, ex, oo⟩
  rcases ie with e | ⟨b, reason⟩ <;> simp [awaitTry]
  cases b <;> simp
  · split_ifs
    · cases gt <;> simp
    · simp
  · cases ex <;> simp [await]
    cases oo <;> simp

/-! ## Finalised entities stay as they are -/

theorem Ledger.approve_ok {cfg : Ledger.Config} {s s1 : Ledger.State} {caller : String}
    {now id : Nat} (h : Ledger.approve cfg s caller now id = Except.ok s1) :
    ∃ q q1, s.proposals.get? id = some q ∧ (q.executed || q.cancelled) = false ∧
      s1.proposals = s.proposals.set id q1 := by
  unfold Ledger.approve at h
  split_ifs at h
  split at h
  · cases h
  · rename_i q hq
    split_ifs at h with h1 h2
    cases h
    exact ⟨q, _, hq, by simpa using h2, rfl⟩

theorem Ledger.execute_ok {cfg : Ledger.Config} {s s1 : Ledger.State} {caller : String}
    {now id : Nat} (h : Ledger.execute cfg s caller now id = Except.ok s1) :
    ∃ q q1, s.proposals.get? id = some q ∧ (q.executed || q.cancelled) = false ∧
      s1.proposals = s.proposals.set id q1 := by
  unfold Ledger.execute at h
  split_ifs at h
  split at h
  · cases h
  · rename_i q hq
    split at h
    · cases h
    · cases h
    · cases h
    · rename_i hg
      split_ifs at h
      cases h
      refine ⟨q, _, hq, ?_, rfl⟩
      unfold Ledger.gates at hg
      split_ifs at hg with h1 h2 <;> simp_all

theorem Ledger.cancel_ok {s s1 : Ledger.State} {caller : String}
    {id : Nat} (h : Ledger.cancel s caller id = Except.ok s1) :
    ∃ q q1, s.proposals.get? id = some q ∧ (q.executed || q.cancelled) = false ∧
      s1.proposals = s.proposals.set id q1 := by
  unfold Ledger.cancel at h
  split_ifs at h
  split at h
  · cases h
  · rename_i q hq
    split_ifs at h with h1
    cases h
    exact ⟨q, _, hq, by simpa using h1, rfl⟩

/-- A proposal that is executed or cancelled is left as it is by every
operation that succeeds. -/
theorem Ledger.step_finalized {cfg : Ledger.Config} {s s1 : Ledger.State} {c : Ledger.Call}
    (h : Ledger.step cfg s c = Except.ok s1)
    {id : Nat} {p : Ledger.Proposal} (hp : s.proposals.get? id = some p)
    (hf : (p.executed || p.cancelled) = true) :
    s1.proposals.get? id = some p := by
  have key : ∀ id', (∃ q q1, s.proposals.get? id' = some q ∧
      (q.executed || q.cancelled) = false ∧ s1.proposals = s.proposals.set id' q1) →
      s1.proposals.get? id = some p := by
    rintro id' ⟨q, q1, hq, hnf, hs⟩
    have hne : id' ≠ id := by
      rintro rfl
      rw [hp] at hq
      cases hq
      rw [hf] at hnf
      cases hnf
    rw [hs]
    simpa [List.getElem?_set_ne hne] using hp
  rcases c with ⟨caller, now, op⟩
  cases op with
  | propose dest value description =>
    simp only [Ledger.step, Ledger.propose] at h
    split_ifs at h
    cases h
    have hlt : id < s.proposals.length := by
      by_contra hge
      simp [List.getElem?_eq_none (Nat.le_of_not_lt hge)] at hp
    simpa [List.getElem?_append_left hlt] using hp
  | approve id' => exact key id' (Ledger.approve_ok h)
  | execute id' => exact key id' (Ledger.execute_ok h)
  | cancel id' => exact key id' (Ledger.cancel_ok h)
  | pause =>
    simp only [Ledger.step, Ledger.setPaused] at h
    split_ifs at h
    cases h
    exact hp
  | unpause =>
    simp only [Ledger.step, Ledger.setPaused] at h
    split_ifs at h
    cases h
    exact hp
  | deposit amount =>
    simp only [Ledger.step] at h
    cases h
    exact hp
  | grant who role =>
    simp only [Ledger.step, Ledger.grant] at h
    split_ifs at h
    cases h
    exact hp

/-- A proposal that is executed or cancelled is the same after any sequence
of calls. -/
theorem Ledger.run_finalized (cfg : Ledger.Config) (calls : List Ledger.Call)
    (s : Ledger.State) (id : Nat) (p : Ledger.Proposal)
    (hp : s.proposals.get? id = some p) (hf : (p.executed || p.cancelled) = true) :
    (Ledger.run cfg s calls).proposals.get? id = some p := by
  induction calls generalizing s with
  | nil => simpa [Ledger.run] using hp
  | cons c cs ih =>
    simp only [Ledger.run, List.foldl_cons]
    apply ih
    unfold Ledger.apply
    cases h : Ledger.step cfg s c with
    | error e => exact hp
    | ok s1 => exact Ledger.step_finalized h hp hf

theorem Registry.approveTicket_ok {cfg : Registry.Config} {s s1 : Registry.State}
    {caller : String} {now id : Nat}
    (h : Registry.approveTicket cfg s caller now id = Except.ok s1) :
    ∃ t t1, s.tickets.get? id = some t ∧ t.status.terminal = false ∧
      s1.tickets = s.tickets.set id t1 := by
  unfold Registry.approveTicket at h
  split_ifs at h
  split at h
  · cases h
  · rename_i t ht
    by_cases h1 : caller ∈ t.approvals
    · rw [if_pos h1] at h
      cases h
    · by_cases h2 : t.status.terminal = true
      · rw [if_neg h1, if_pos h2] at h
        cases h
      · rw [if_neg h1, if_neg h2] at h
        dsimp only at h
        injection h with h
        subst h
        exact ⟨t, _, ht, by simpa using h2, rfl⟩

theorem Registry.executeTicket_ok {cfg : Registry.Config} {s s1 : Registry.State}
    {now id : Nat} {resultMessage : String}
    (h : Registry.executeTicket cfg s now id resultMessage = Except.ok s1) :
    ∃ t, s.tickets.get? id = some t ∧ t.status.terminal = false ∧
      (Registry.gates cfg t now).1 = true ∧
      s1.tickets = s.tickets.set id
        { t with holder := none, status := Registry.Status.Executed,
                 resultMessage := resultMessage } := by
  unfold Registry.executeTicket at h
  split at h
  · cases h
  · rename_i t ht
    split_ifs at h with h1 h2
    cases h
    exact ⟨t, ht, by simpa using h1, by simpa using h2, rfl⟩

theorem Registry.retire_ok {s s1 : Registry.State} {caller : String} {id : Nat}
    {status : Registry.Status} (h : Registry.retire s caller id status = Except.ok s1) :
    ∃ t t1, s.tickets.get? id = some t ∧ t.status.terminal = false ∧
      s1.tickets = s.tickets.set id t1 := by
  unfold Registry.retire at h
  split_ifs at h
  split at h
  · cases h
  · rename_i t ht
    split_ifs at h with h1
    cases h
    exact ⟨t, _, ht, by simpa using h1, rfl⟩

/-- A ticket in a terminal status is left as it is by every operation that
succeeds. -/
theorem Registry.step_terminal {cfg : Registry.Config} {s s1 : Registry.State}
    {c : Registry.Call} (h : Registry.step cfg s c = Except.ok s1)
    {id : Nat} {t : Registry.Ticket} (ht : s.tickets.get? id = some t)
    (hf : t.status.terminal = true) :
    s1.tickets.get? id = some t := by
  have key : ∀ id', (∃ q q1, s.tickets.get? id' = some q ∧
      q.status.terminal = false ∧ s1.tickets = s.tickets.set id' q1) →
      s1.tickets.get? id = some t := by
    rintro id' ⟨q, q1, hq, hnf, hs⟩
    have hne : id' ≠ id := by
      rintro rfl
      rw [ht] at hq
      cases hq
      rw [hf] at hnf
      cases hnf
    rw [hs]
    simpa [List.getElem?_set_ne hne] using ht
  rcases c with ⟨caller, now, op⟩
  cases op with
  | mintTicket holder changeScope severity =>
    simp only [Registry.step, Registry.mintTicket] at h
    split_ifs at h
    cases h
    have hlt : id < s.tickets.length := by
      by_contra hge
      simp [List.getElem?_eq_none (Nat.le_of_not_lt hge)] at ht
    simpa [List.getElem?_append_left hlt] using ht
  | approveTicket id' => exact key id' (Registry.approveTicket_ok h)
  | executeTicket id' resultMessage =>
    obtain ⟨q, hq, hnf, _, hs⟩ := Registry.executeTicket_ok h
    exact key id' ⟨q, _, hq, hnf, hs⟩
  | cancel id' => exact key id' (Registry.retire_ok h)
  | expire id' => exact key id' (Registry.retire_ok h)
  | grantRole who =>
    simp only [Registry.step, Registry.grantRole] at h
    split_ifs at h
    cases h
    exact ht

/-- A ticket in a terminal status is the same after any sequence of calls. -/
theorem Registry.run_terminal (cfg : Registry.Config) (calls : List Registry.Call)
    (s : Registry.State) (id : Nat) (t : Registry.Ticket)
    (ht : s.tickets.get? id = some t) (hf : t.status.terminal = true) :
    (Registry.run cfg s calls).tickets.get? id = some t := by
  induction calls generalizing s with
  | nil => simpa [Registry.run] using ht
  | cons c cs ih =>
    simp only [Registry.run, List.foldl_cons]
    apply ih
    unfold Registry.apply
    cases h : Registry.step cfg s c with
    | error e => exact ht
    | ok s1 => exact Registry.step_terminal h ht hf

/-- A successful `executeTicket` leaves the ticket `Executed` and without a
holder. -/
theorem Registry.executeTicket_burns {cfg : Registry.Config} {s s1 : Registry.State}
    {now id : Nat} {resultMessage : String}
    (h : Registry.executeTicket cfg s now id resultMessage = Except.ok s1) :
    ∃ t1, s1.tickets.get? id = some t1 ∧ t1.status = Registry.Status.Executed ∧
      t1.holder = none := by
  obtain ⟨t, ht, _, _, hs⟩ := Registry.executeTicket_ok h
  have hlt : id < s.tickets.length := by
    by_contra hge
    simp [List.getElem?_eq_none (Nat.le_of_not_lt hge)] at ht
  refine ⟨{ t with holder := none, status := Registry.Status.Executed,
                    resultMessage := resultMessage }, ?_, rfl, rfl⟩
  rw [hs]
  simp [hlt]

/-- After a successful `executeTicket` the ownership lookup fails in every
later state. -/
theorem Registry.ownerOf_after_execute {cfg : Registry.Config} {s s1 : Registry.State}
    {now id : Nat} {resultMessage : String}
    (h : Registry.executeTicket cfg s now id resultMessage = Except.ok s1)
    (later : List Registry.Call) :
    Registry.ownerOf (Registry.run cfg s1 later) id = Except.error Error.NotFound := by
  obtain ⟨t1, ht1, hst, hh⟩ := Registry.executeTicket_burns h
  have h2 := Registry.run_terminal cfg later s1 id t1 ht1 (by rw [hst]; rfl)
  simp only [Registry.ownerOf, h2, hh]

/-! ## The claims -/

/-- C1: for thresholds `t1 ≤ t2` the label `propose.js` announces is the L1
label exactly when `amount ≤ t1`, the L2 label exactly when
`t1 < amount ≤ t2` and the L3 label exactly when `amount > t2`; an amount
equal to `t1` is L1, an amount equal to `t2` is never L3 and is L2 as soon as
the two thresholds differ.  The label is a function of the three numbers. -/
theorem level_tiers (amount t1 t2 : Int) (h : t1 ≤ t2) :
    (level amount t1 t2 = "L1 (타임락 없음)" ↔ amount ≤ t1) ∧
    (level amount t1 t2 = "L2 (타임락 1분 30초)" ↔ t1 < amount ∧ amount ≤ t2) ∧
    (level amount t1 t2 = "L3 (타임락 2분)" ↔ t2 < amount) ∧
    level t1 t1 t2 = "L1 (타임락 없음)" ∧
    level t2 t1 t2 ≠ "L3 (타임락 2분)" ∧
    (t1 < t2 → level t2 t1 t2 = "L2 (타임락 1분 30초)") := by
  unfold level
  refine ⟨?_, ?_, ?_, ?_, ?_, ?_⟩
  · split_ifs <;> simp_all
  · split_ifs <;> simp_all
  · split_ifs <;> simp_all
    omega
  · simp
  · split_ifs <;> simp_all
  · intro hlt
    split_ifs <;> simp_all
    omega

/-- C1 at the thresholds 5 and 10 with the amount on the lower boundary. -/
theorem level_tiers_witness :
    (5 : Int) ≤ 10 ∧ level 5 5 10 = "L1 (타임락 없음)" ∧
    level 10 5 10 = "L2 (타임락 1분 30초)" :=
  ⟨by decide, (level_tiers 5 5 10 (by decide)).2.2.2.1,
    (level_tiers 5 5 10 (by decide)).2.2.2.2.2 (by decide)⟩

/-- C2: when its reads answer, `execute.js` sends `vault.execute(txId)` if and
only if `now ≥ timelockUntil`, `canExecute` answered true and
`balance ≥ value`; it then sends exactly that one transaction, a balance equal
to the value is accepted, and in every other case it sends nothing; a run
in which a read fails sends nothing either. -/
theorem execute_gating (formatEther : Nat → String) (txId : Nat) (canExec : Bool)
    (reason : String) (txInfo : TxInfo) (now balance : Nat)
    (execute : Except String String) (getBalanceAfter : Except String Nat) :
    let t := executeMain formatEther txId
      { canExecute := Except.ok (canExec, reason), getTransaction := Except.ok txInfo,
        now := now, getBalance := Except.ok balance, execute := execute,
        getBalanceAfter := getBalanceAfter }
    (Tx.execute txId ∈ sent t ↔
      now ≥ txInfo.timelockUntil ∧ canExec = true ∧ balance ≥ txInfo.value) ∧
    (now ≥ txInfo.timelockUntil ∧ canExec = true ∧ balance ≥ txInfo.value →
      sent t = [Tx.execute txId]) ∧
    (now ≥ txInfo.timelockUntil ∧ canExec = true ∧ balance = txInfo.value →
      sent t = [Tx.execute txId]) ∧
    (¬ (now ≥ txInfo.timelockUntil ∧ canExec = true ∧ balance ≥ txInfo.value) →
      sent t = []) ∧
    (∀ r : ExecuteReads, Tx.execute txId ∈ sent (executeMain formatEther txId r) →
      ∃ why info funds, r.canExecute = Except.ok (true, why) ∧
        r.getTransaction = Except.ok info ∧ r.getBalance = Except.ok funds ∧
        r.now ≥ info.timelockUntil ∧ funds ≥ info.value) := by
  intro t
  have hs := executeMain_sends formatEther txId canExec reason txInfo now balance execute
    getBalanceAfter
  refine ⟨?_, ?_, ?_, ?_, ?_⟩
  · simp only [t, hs]
    split_ifs with hc <;> simp [hc]
  · intro hc
    simp only [t, hs, if_pos hc]
  · rintro ⟨h1, h2, h3⟩
    simp only [t, hs, if_pos (show now ≥ txInfo.timelockUntil ∧ canExec = true ∧
      balance ≥ txInfo.value from ⟨h1, h2, Nat.le_of_eq h3.symm⟩)]
  · intro hc
    simp only [t, hs, if_neg hc]
  · intro r hr
    rw [executeMain_sends_any] at hr
    rcases r with ⟨ce, gt, now1, gb, ex, ba⟩
    rcases ce with e | ⟨b, why⟩
    · simp at hr
    · rcases gt with e | info
      · cases b <;> simp at hr
      · rcases gb with e | funds
        · cases b <;> simp at hr
        · cases b
          · simp at hr
          · simp only at hr
            split_ifs at hr with hc
            · exact ⟨why, info, funds, rfl, rfl, rfl, hc.1, hc.2⟩
            · simp at hr

/-- C3: when its reads answer, `execute.js` prints its balance-insufficient
line exactly when the timelock has elapsed, `canExecute` answered true and
`balance < value`; that line differs from the cannot-execute line and from
the timelock-waiting line for every reason and every remaining time, and no
run prints two of the three. -/
theorem insufficient_distinct (formatEther : Nat → String) (txId : Nat) (canExec : Bool)
    (reason : String) (txInfo : TxInfo) (now balance : Nat)
    (execute : Except String String) (getBalanceAfter : Except String Nat) :
    let t := executeMain formatEther txId
      { canExecute := Except.ok (canExec, reason), getTransaction := Except.ok txInfo,
        now := now, getBalance := Except.ok balance, execute := execute,
        getBalanceAfter := getBalanceAfter }
    (reportsInsufficient t ↔
      now ≥ txInfo.timelockUntil ∧ canExec = true ∧ balance < txInfo.value) ∧
    (reportsCannotExecute t ↔ now ≥ txInfo.timelockUntil ∧ canExec = false) ∧
    (reportsTimelockWait t ↔ now < txInfo.timelockUntil) ∧
    (∀ r, insufficientLine ≠ cannotExecuteLine r) ∧
    (∀ n, insufficientLine ≠ timelockWaitLine n) ∧
    (∀ r n, cannotExecuteLine r ≠ timelockWaitLine n) ∧
    ¬ (reportsInsufficient t ∧ reportsCannotExecute t) ∧
    ¬ (reportsInsufficient t ∧ reportsTimelockWait t) ∧
    ¬ (reportsCannotExecute t ∧ reportsTimelockWait t) := by
  intro t
  have h1 : reportsInsufficient t ↔
      now ≥ txInfo.timelockUntil ∧ canExec = true ∧ balance < txInfo.value := by
    cases execute <;> cases getBalanceAfter <;> cases canExec <;>
    simp [t, reportsInsufficient, executeMain, await, bar, insufficientLine,
      cannotExecuteLine, timelockWaitLine, String.ext_iff] <;>
    split_ifs <;> simp_all [String.ext_iff]
  have h2 : reportsCannotExecute t ↔ now ≥ txInfo.timelockUntil ∧ canExec = false := by
    cases execute <;> cases getBalanceAfter <;> cases canExec <;>
    simp [t, reportsCannotExecute, executeMain, await, bar, insufficientLine,
      cannotExecuteLine, timelockWaitLine, String.ext_iff] <;>
    split_ifs <;> simp_all [String.ext_iff]
  have h3 : reportsTimelockWait t ↔ now < txInfo.timelockUntil := by
    cases execute <;> cases getBalanceAfter <;> cases canExec <;>
    simp [t, reportsTimelockWait, executeMain, await, bar, insufficientLine,
      cannotExecuteLine, timelockWaitLine, String.ext_iff] <;>
    split_ifs <;> simp_all [String.ext_iff]
  refine ⟨h1, h2, h3, ?_, ?_, ?_, ?_, ?_, ?_⟩
  · intro r
    simp [insufficientLine, cannotExecuteLine, String.ext_iff]
  · intro r
    simp [insufficientLine, timelockWaitLine, String.ext_iff]
  · intro r n
    simp [cannotExecuteLine, timelockWaitLine, String.ext_iff]
  · rw [h1, h2]
    rintro ⟨⟨_, h, _⟩, _, h'⟩
    simp [h] at h'
  · rw [h1, h3]
    rintro ⟨⟨h, _, _⟩, h'⟩
    omega
  · rw [h2, h3]
    rintro ⟨⟨h, _⟩, h'⟩
    omega

/-- C4: when the approval lookup for the caller answers true, `approve.js`
sends no transaction and `approve_ticket.js` sends no transaction, so the
contract state, approval count and approval set included, is the same after
the run, whatever a transaction would have done to it. -/
theorem no_second_approval {σ : Type} (step : σ → Tx → σ) (s : σ)
    (formatEther : Nat → String) (txId : Nat) (tokenId address : String)
    (r : ApproveReads) (rt : ApproveTicketReads)
    (h : r.isApproved = Except.ok true) (ht : rt.getApprovalStatus = Except.ok true) :
    sent (approveMain formatEther txId address r) = [] ∧
    sent (approveTicketMain tokenId address rt) = [] ∧
    effect step s (approveMain formatEther txId address r) = s ∧
    effect step s (approveTicketMain tokenId address rt) = s := by
  have h1 : sent (approveMain formatEther txId address r) = [] := by
    rw [approve_sends, h]
    cases r.getTransaction <;> rfl
  have h2 : sent (approveTicketMain tokenId address rt) = [] := by
    rw [approveTicket_sends, ht]
    cases rt.getTicketInfo <;> rfl
  exact ⟨h1, h2, by simp [effect, h1], by simp [effect, h2]⟩

/-- C4 for an owner who has approved proposal 0 and ticket `0` already; the
state is the number of approvals and a transaction would add one. -/
theorem no_second_approval_witness :
    sent (approveMain (fun w => toString w) 0 "0x79722aCD6bd0aB02E4Bf59dd72d605357Bb18999"
      { getTransaction := Except.ok Ledger.twoApprovals.info, isApproved := Except.ok true,
        approve := Except.error "AlreadyApproved", wait := Except.ok (),
        getTransactionAfter := Except.ok Ledger.twoApprovals.info,
        canExecuteAfter := Except.ok (true, ""), now := 1700000000 }) = [] ∧
    sent (approveTicketMain "0" "0x79722aCD6bd0aB02E4Bf59dd72d605357Bb18999"
      { getTicketInfo := Except.ok Registry.approvedTicket.info,
        getApprovalStatus := Except.ok true,
        approveTicket := Except.error "AlreadyApproved",
        getTicketInfoAfter := Except.ok Registry.approvedTicket.info,
        now := 1700000000 }) = [] ∧
    effect (fun (n : Nat) _ => n + 1) 2
      (approveMain (fun w => toString w) 0 "0x79722aCD6bd0aB02E4Bf59dd72d605357Bb18999"
      { getTransaction := Except.ok Ledger.twoApprovals.info, isApproved := Except.ok true,
        approve := Except.error "AlreadyApproved", wait := Except.ok (),
        getTransactionAfter := Except.ok Ledger.twoApprovals.info,
        canExecuteAfter := Except.ok (true, ""), now := 1700000000 }) = 2 ∧
    effect (fun (n : Nat) _ => n + 1) 2
      (approveTicketMain "0" "0x79722aCD6bd0aB02E4Bf59dd72d605357Bb18999"
      { getTicketInfo := Except.ok Registry.approvedTicket.info,
        getApprovalStatus := Except.ok true,
        approveTicket := Except.error "AlreadyApproved",
        getTicketInfoAfter := Except.ok Registry.approvedTicket.info,
        now := 1700000000 }) = 2 :=
  no_second_approval (fun (n : Nat) _ => n + 1) 2 (fun w => toString w) 0 "0"
    "0x79722aCD6bd0aB02E4Bf59dd72d605357Bb18999" _ _ rfl rfl

/-- C5, as stated, fails: `approve.js` sends `approve(0)` for a proposal that
is cancelled, and `approve_ticket.js` sends `approveTicket` for a ticket whose
status is `Cancelled`. -/
theorem approve_finalised_counterexample :
    cancelledProposal.cancelled = true ∧
    sent (approveMain (fun w => toString w) 0 "0x79722aCD6bd0aB02E4Bf59dd72d605357Bb18999"
      { getTransaction := Except.ok cancelledProposal, isApproved := Except.ok false,
        approve := Except.error "AlreadyFinalized", wait := Except.ok (),
        getTransactionAfter := Except.ok cancelledProposal,
        canExecuteAfter := Except.ok (false, "finalized"), now := 1700000000 })
      = [Tx.approve 0] ∧
    cancelledTicket.status = Registry.Status.Cancelled.code ∧
    sent (approveTicketMain "0" "0x79722aCD6bd0aB02E4Bf59dd72d605357Bb18999"
      { getTicketInfo := Except.ok cancelledTicket, getApprovalStatus := Except.ok false,
        approveTicket := Except.error "AlreadyFinalized",
        getTicketInfoAfter := Except.ok cancelledTicket, now := 1700000000 })
      = [Tx.approveTicket "0"] := by
  refine ⟨rfl, ?_, rfl, ?_⟩
  · simp [approve_sends, cancelledProposal]
  · simp [approveTicket_sends]

/-- C5, amended: `approve.js` sends `vault.approve(txId)` only when the
proposal is not executed and the caller has not approved it; and
`approve_ticket.js` checks no status: it sends `approveTicket` exactly when
the ticket record was read and the caller has not approved, whatever the
status of the ticket. -/
theorem approve_guards (formatEther : Nat → String) (txId : Nat) (tokenId address : String)
    (r : ApproveReads) (rt : ApproveTicketReads) :
    (Tx.approve txId ∈ sent (approveMain formatEther txId address r) →
      ∃ txInfo, r.getTransaction = Except.ok txInfo ∧ txInfo.executed = false ∧
        r.isApproved = Except.ok false) ∧
    (Tx.approveTicket tokenId ∈ sent (approveTicketMain tokenId address rt) ↔
      ∃ info, rt.getTicketInfo = Except.ok info ∧
        rt.getApprovalStatus = Except.ok false) := by
  constructor
  · rw [approve_sends]
    rcases r with ⟨gt, ia, ap, w, gta, cea, now⟩
    rcases gt with e | txInfo <;> rcases ia with e' | b <;> simp
    cases b <;> simp
  · rw [approveTicket_sends]
    rcases rt with ⟨gt, ia, ap, gta, now⟩
    rcases gt with e | txInfo <;> rcases ia with e' | b <;> simp
    cases b <;> simp

/-- C6, as stated, fails: with a configured quorum of three and two approvals
the quorum gate of `canExecute` fails, yet `approve.js` does not report that a
further approval is needed. -/
theorem quorum_counterexample :
    Ledger.quorumThree.quorum = 3 ∧
    Ledger.twoApprovals.info.approvals = 2 ∧
    Ledger.gates Ledger.quorumThree false Ledger.twoApprovals 1700000000
      = (false, Ledger.Reason.quorum) ∧
    Event.log needMoreLine ∉ approveNotice 0 false Ledger.twoApprovals.info 1700000000 := by
  refine ⟨rfl, rfl, ?_, ?_⟩
  · decide
  · decide

/-- C6, amended: the clients compare the approval count with the constant 2:
with `canExecute` false, `approve.js` reports that a further approval is
needed exactly when the count is below 2 and prints its timelock line exactly
when the count is at least 2 and the timelock lies ahead; `status.js` shows
the countdown exactly for a proposal neither executed nor cancelled whose
count is at least 2 and whose timelock lies ahead. -/
theorem quorum_two (formatEther : Nat → String) (txId i : Nat) (info : TxInfo)
    (canExec : Bool) (reason : String) (now now1 now2 : Nat) :
    (Event.log needMoreLine ∈ approveNotice txId false info now ↔ info.approvals < 2) ∧
    ((∃ n, Event.log (approveTimelockLine n) ∈ approveNotice txId false info now) ↔
      info.approvals ≥ 2 ∧ info.timelockUntil > now) ∧
    ((∃ n, Event.log (countdownLine n) ∈
        statusEntry formatEther i info canExec reason now1 now2) ↔
      info.executed = false ∧ info.cancelled = false ∧ info.approvals ≥ 2 ∧
        info.timelockUntil > now1) := by
  refine ⟨?_, ?_, ?_⟩
  · unfold approveNotice
    dsimp only
    split_ifs <;> simp_all [needMoreLine, approveTimelockLine, String.ext_iff]
  · unfold approveNotice
    dsimp only
    split_ifs <;> simp_all [needMoreLine, approveTimelockLine, String.ext_iff]
  · unfold statusEntry
    dsimp only
    split_ifs <;> simp_all [countdownLine, String.ext_iff]

/-- C7: `execute_ticket.js` sends `executeTicket(tokenId, resultMsg)` if and
only if the `isExecutable` read came back without error with the answer true;
when the answer is false or the read fails it sends nothing, and so it does
without an argument. -/
theorem executeTicket_gating (tokenId : String) (rest : List String)
    (r : ExecuteTicketReads) :
    (Tx.executeTicket tokenId (resultMsg (tokenId :: rest)) ∈
        sent (executeTicketMain (tokenId :: rest) r) ↔
      ∃ reason, r.isExecutable = Except.ok (true, reason)) ∧
    ((∃ reason, r.isExecutable = Except.ok (true, reason)) →
      sent (executeTicketMain (tokenId :: rest) r) =
        [Tx.executeTicket tokenId (resultMsg (tokenId :: rest))]) ∧
    ((¬ ∃ reason, r.isExecutable = Except.ok (true, reason)) →
      sent (executeTicketMain (tokenId :: rest) r) = []) ∧
    sent (executeTicketMain [] r) = [] := by
  rw [executeTicket_sends]
  rcases r with ⟨ie, gt, now, ex, oo⟩
  rcases ie with e | ⟨b, reason⟩ <;> simp [executeTicketMain]
  cases b <;> simp

/-- C8: when `isExecutable` answers false with a reason, `execute_ticket.js`
prints the reason; it prints a remaining-timelock line only if the reason is
the string `Timelock not expired`, and for that reason, the ticket record
being read, the line it prints is the one for `timelockUntil - now`; for
every other reason the run prints the heading and the reason and nothing
else. -/
theorem timelock_reason_branch (tokenId : String) (rest : List String) (reason : String)
    (getTicketInfo : Except String TicketInfo) (now : Nat)
    (executeTicket : Except String Unit) (ownerOf : Except String String) :
    let t := executeTicketMain (tokenId :: rest)
      { isExecutable := Except.ok (false, reason), getTicketInfo := getTicketInfo,
        now := now, executeTicket := executeTicket, ownerOf := ownerOf }
    Event.log (notExecutableLine reason) ∈ t ∧
    ((∃ n, Event.log (ticketTimelockLine n) ∈ t) → reason = "Timelock not expired") ∧
    (reason = "Timelock not expired" → ∀ info, getTicketInfo = Except.ok info →
      Event.log (ticketTimelockLine ((info.timelockUntil : Int) - (now : Int))) ∈ t ∧
      ∀ n, Event.log (ticketTimelockLine n) ∈ t →
        ticketTimelockLine n = ticketTimelockLine ((info.timelockUntil : Int) - (now : Int))) ∧
    (reason ≠ "Timelock not expired" →
      t = [Event.log bar, Event.log "🔥 NFT 티켓 실행 및 소각", Event.log bar,
           Event.log ("티켓 ID: " ++ tokenId), Event.log (notExecutableLine reason)]) := by
  intro t
  refine ⟨?_, ?_, ?_, ?_⟩
  · simp [t, executeTicketMain, awaitTry]
  · rintro ⟨n, hn⟩
    by_contra hr
    simp [t, executeTicketMain, awaitTry, hr, bar, notExecutableLine, ticketTimelockLine,
      String.ext_iff] at hn
  · intro hr info hi
    subst hr hi
    simp [t, executeTicketMain, awaitTry, bar, notExecutableLine, ticketTimelockLine,
      String.ext_iff]
  · intro hr
    simp [t, executeTicketMain, awaitTry, hr]

/-- C9: once a proposal is executed, after any sequence of later calls
`canExecute` answers false, naming the already-executed gate (the paused gate,
which comes first, when the treasury is paused), and a run of `execute.js` on
that id sends nothing; once `executeTicket` has succeeded on a ticket, after
any sequence of later calls `isExecutable` answers false and a run of
`execute_ticket.js` on that id sends nothing, and it sends nothing either
whenever the read fails or answers false. -/
theorem execution_not_repeated
    (cfg : Ledger.Config) (s : Ledger.State) (id : Nat) (p : Ledger.Proposal)
    (calls : List Ledger.Call) (chainNow now : Nat) (reasonText : Ledger.Reason → String)
    (formatEther : Nat → String) (execute : Except String String)
    (getBalanceAfter : Except String Nat)
    (rcfg : Registry.Config) (rs rs1 : Registry.State) (tid t0 : Nat) (msg : String)
    (rcalls later : List Registry.Call) (caller tokenId msg1 : String) (rest : List String)
    (readNow txNow rnow : Nat)
    (hp : s.proposals.get? id = some p) (hx : p.executed = true)
    (hexec : Registry.executeTicket rcfg rs t0 tid msg = Except.ok rs1) :
    Ledger.canExecute cfg (Ledger.run cfg s calls) id chainNow =
      Except.ok (false, if (Ledger.run cfg s calls).paused then Ledger.Reason.paused
        else Ledger.Reason.finalized) ∧
    sent (executeMain formatEther id (Ledger.executeReads cfg (Ledger.run cfg s calls) id
      chainNow now reasonText execute getBalanceAfter)) = [] ∧
    Registry.isExecutable rcfg (Registry.run rcfg rs1 rcalls) tid readNow =
      Except.ok (false, rcfg.statusReason) ∧
    sent (executeTicketMain (tokenId :: rest) (Registry.executeTicketReads rcfg
      (Registry.run rcfg rs1 rcalls) caller tid msg1 readNow txNow rnow later)) = [] ∧
    (∀ r : ExecuteTicketReads, (∀ reason, r.isExecutable ≠ Except.ok (true, reason)) →
      sent (executeTicketMain (tokenId :: rest) r) = []) := by
  have hf : (p.executed || p.cancelled) = true := by simp [hx]
  have h1 := Ledger.run_finalized cfg calls s id p hp hf
  have hc : Ledger.canExecute cfg (Ledger.run cfg s calls) id chainNow =
      Except.ok (false, if (Ledger.run cfg s calls).paused then Ledger.Reason.paused
        else Ledger.Reason.finalized) := by
    simp only [Ledger.canExecute, h1, Ledger.gates, hx]
    split_ifs <;> simp_all
  obtain ⟨t1, ht1, hst, _⟩ := Registry.executeTicket_burns hexec
  have h2 := Registry.run_terminal rcfg rcalls rs1 tid t1 ht1 (by rw [hst]; rfl)
  have hi : Registry.isExecutable rcfg (Registry.run rcfg rs1 rcalls) tid readNow =
      Except.ok (false, rcfg.statusReason) := by
    simp only [Registry.isExecutable, h2, Registry.gates, hst]
    simp
  refine ⟨hc, ?_, hi, ?_, ?_⟩
  · simp only [Ledger.executeReads, hc, Ledger.getTransaction, h1, received]
    rw [executeMain_sends]
    simp
  · rw [executeTicket_sends]
    simp [Registry.executeTicketReads, hi, received]
  · intro r hr
    rw [executeTicket_sends]
    rcases r with ⟨ie, gt, now', ex, oo⟩
    rcases ie with e | ⟨b, reason⟩
    · rfl
    · cases b
      · rfl
      · exact absurd rfl (hr reason)

/-- C9 on the ledger whose proposal 0 is executed, after a further `execute`
call, and on the registry whose ticket 0 was executed, after a further
`executeTicket` call. -/
theorem execution_not_repeated_witness :
    Ledger.paidOut.proposals.get? 0 = some { Ledger.twoApprovals with executed := true } ∧
    Registry.executeTicket Registry.tables Registry.oneApproved 1700000100 0 "done"
      = Except.ok Registry.oneExecuted ∧
    sent (executeMain (fun w => toString w) 0
      (Ledger.executeReads Ledger.quorumThree
        (Ledger.run Ledger.quorumThree Ledger.paidOut
          [⟨"0x79722aCD6bd0aB02E4Bf59dd72d605357Bb18999", 1700000200, Ledger.Op.execute 0⟩])
        0 1700000300 1700000300 (fun _ => "not ready") (Except.ok "0xabc")
        (Except.ok 600000000000000))) = [] ∧
    sent (executeTicketMain ["0", "again"]
      (Registry.executeTicketReads Registry.tables
        (Registry.run Registry.tables Registry.oneExecuted
          [⟨"0x79722aCD6bd0aB02E4Bf59dd72d605357Bb18999", 1700000200,
            Registry.Op.executeTicket 0 "again"⟩])
        "0x79722aCD6bd0aB02E4Bf59dd72d605357Bb18999" 0 "again"
        1700000300 1700000300 1700000300 [])) = [] :=
  have h := execution_not_repeated Ledger.quorumThree Ledger.paidOut 0
    { Ledger.twoApprovals with executed := true }
    [⟨"0x79722aCD6bd0aB02E4Bf59dd72d605357Bb18999", 1700000200, Ledger.Op.execute 0⟩]
    1700000300 1700000300 (fun _ => "not ready") (fun w => toString w) (Except.ok "0xabc")
    (Except.ok 600000000000000)
    Registry.tables Registry.oneApproved Registry.oneExecuted 0 1700000100 "done"
    [⟨"0x79722aCD6bd0aB02E4Bf59dd72d605357Bb18999", 1700000200,
      Registry.Op.executeTicket 0 "again"⟩] []
    "0x79722aCD6bd0aB02E4Bf59dd72d605357Bb18999" "0" "again" ["again"]
    1700000300 1700000300 1700000300 rfl rfl rfl
  ⟨rfl, rfl, h.2.1, h.2.2.2.1⟩

/-- C10: whenever `executeTicket` succeeds on a ticket, the ownership lookup
on that id fails in the state it leaves and in every later one; so a run of
`execute_ticket.js` against the registry in which `isExecutable` answered true
and `executeTicket` succeeded prints that the execution completed and then
the burn confirmation, as its last two lines; no run against the registry
prints the not-burned warning.  The script itself prints the confirmation
when `ownerOf` fails after the execution and the warning when it answers. -/
theorem burn_observable (cfg : Registry.Config) (s : Registry.State) (caller tokenId : String)
    (rest : List String) (id readNow txNow now : Nat) (later : List Registry.Call) :
    let msg := resultMsg (tokenId :: rest)
    let t := executeTicketMain (tokenId :: rest)
      (Registry.executeTicketReads cfg s caller id msg readNow txNow now later)
    (∀ (at0 : Nat) (m : String) (s1 : Registry.State) (calls : List Registry.Call),
      Registry.executeTicket cfg s at0 id m = Except.ok s1 →
      Registry.ownerOf (Registry.run cfg s1 calls) id = Except.error Error.NotFound) ∧
    Event.log notBurnedLine ∉ t ∧
    (Event.log executedLine ∈ t → Event.log burnedLine ∈ t) ∧
    (∀ (reason : String) (s1 : Registry.State),
      Registry.isExecutable cfg s id readNow = Except.ok (true, reason) →
      Registry.executeTicket cfg s txNow id msg = Except.ok s1 →
      t = [Event.log bar, Event.log "🔥 NFT 티켓 실행 및 소각", Event.log bar,
           Event.log ("티켓 ID: " ++ tokenId),
           Event.log ("실행 결과 기록: \"" ++ msg ++ "\""),
           Event.log "\n⏳ 트랜잭션 전송 중... (실행 + 소각)",
           Event.send (Tx.executeTicket tokenId msg),
           Event.log executedLine, Event.log burnedLine]) ∧
    (∀ (reason : String) (info : Except String TicketInfo) (clock : Nat)
        (owner : Except String String),
      (∃ tail, executeTicketMain (tokenId :: rest)
        { isExecutable := Except.ok (true, reason), getTicketInfo := info, now := clock,
          executeTicket := Except.ok (), ownerOf := owner } =
        tail ++ [Event.log executedLine,
          Event.log (match owner with
            | Except.ok _ => notBurnedLine
            | Except.error _ => burnedLine)])) := by
  intro msg t
  have hown : ∀ s1, Registry.executeTicket cfg s txNow id msg = Except.ok s1 →
      Registry.ownerOf (Registry.run cfg s1 later) id = Except.error Error.NotFound :=
    fun s1 h => Registry.ownerOf_after_execute h later
  refine ⟨fun _ _ _ calls h => Registry.ownerOf_after_execute h calls, ?_, ?_, ?_, ?_⟩
  rotate_left 2
  · intro reason s1 hie hex
    have := hown s1 hex
    simp [t, msg, executeTicketMain, Registry.executeTicketReads, received, awaitTry, await,
      Registry.apply, Registry.step, hie, hex, this]
  · intro reason info clock owner
    cases owner with
    | error e =>
      exact ⟨[Event.log bar, Event.log "🔥 NFT 티켓 실행 및 소각", Event.log bar,
           Event.log ("티켓 ID: " ++ tokenId),
           Event.log ("실행 결과 기록: \"" ++ resultMsg (tokenId :: rest) ++ "\""),
           Event.log "\n⏳ 트랜잭션 전송 중... (실행 + 소각)",
           Event.send (Tx.executeTicket tokenId (resultMsg (tokenId :: rest)))],
        by simp [executeTicketMain, awaitTry, await]⟩
    | ok a =>
      exact ⟨[Event.log bar, Event.log "🔥 NFT 티켓 실행 및 소각", Event.log bar,
           Event.log ("티켓 ID: " ++ tokenId),
           Event.log ("실행 결과 기록: \"" ++ resultMsg (tokenId :: rest) ++ "\""),
           Event.log "\n⏳ 트랜잭션 전송 중... (실행 + 소각)",
           Event.send (Tx.executeTicket tokenId (resultMsg (tokenId :: rest)))],
        by simp [executeTicketMain, awaitTry, await]⟩
  · simp only [t, executeTicketMain, Registry.executeTicketReads]
    cases hie : Registry.isExecutable cfg s id readNow with
    | error e =>
      simp [received, awaitTry, bar, notBurnedLine, lookupFailedLine, String.ext_iff]
    | ok a =>
      rcases a with ⟨b, reason⟩
      cases b
      · cases hg : Registry.getTicketInfo s id <;>
        simp [received, awaitTry, bar, notBurnedLine, lookupFailedLine, notExecutableLine,
          ticketTimelockLine, String.ext_iff]
      · cases hex : Registry.executeTicket cfg s txNow id msg with
        | error e =>
          simp [received, awaitTry, await, bar, notBurnedLine, String.ext_iff]
        | ok s1 =>
          have := hown s1 hex
          simp [received, awaitTry, await, bar, notBurnedLine, executedLine, burnedLine,
            Registry.apply, Registry.step, hex, this, String.ext_iff]
  · simp only [t, executeTicketMain, Registry.executeTicketReads]
    cases hie : Registry.isExecutable cfg s id readNow with
    | error e =>
      simp [received, awaitTry, bar, executedLine, lookupFailedLine, String.ext_iff]
    | ok a =>
      rcases a with ⟨b, reason⟩
      cases b
      · cases hg : Registry.getTicketInfo s id <;>
        simp [received, awaitTry, bar, executedLine, lookupFailedLine, notExecutableLine,
          ticketTimelockLine, String.ext_iff]
      · cases hex : Registry.executeTicket cfg s txNow id msg with
        | error e =>
          simp [received, awaitTry, await, bar, executedLine, String.ext_iff]
        | ok s1 =>
          have := hown s1 hex
          simp [received, awaitTry, await, bar, executedLine, burnedLine,
            Registry.apply, Registry.step, hex, this, String.ext_iff]

/-! ## Further facts on runs and on the contracts -/

/-- The transactions of a run of `pause.js` whose first read answered. -/
theorem pauseMain_sends (action : String) (rest : List String) (current : Bool)
    (submit : Except String String) (wait : Except String Unit)
    (pausedAfter : Except String Bool) (ha : action = "on" ∨ action = "off") :
    sent (pauseMain (action :: rest)
      { paused := Except.ok current, submit := submit, wait := wait,
        pausedAfter := pausedAfter })
    = if action = "on" ∧ current = false then [Tx.pause]
      else if action = "off" ∧ current = true then [Tx.unpause] else [] := by
  rcases ha with rfl | rfl <;> cases current <;> cases submit <;> cases wait <;>
    cases pausedAfter <;> simp [pauseMain, await]

/-- When `execute.js` prints its timelock-waiting line, reads answered. -/
theorem executeMain_waits (formatEther : Nat → String) (txId : Nat) (canExec : Bool)
    (reason : String) (txInfo : TxInfo) (now balance : Nat)
    (execute : Except String String) (getBalanceAfter : Except String Nat) :
    reportsTimelockWait (executeMain formatEther txId
      { canExecute := Except.ok (canExec, reason), getTransaction := Except.ok txInfo,
        now := now, getBalance := Except.ok balance, execute := execute,
        getBalanceAfter := getBalanceAfter }) ↔ now < txInfo.timelockUntil := by
  cases execute <;> cases getBalanceAfter <;> cases canExec <;>
  simp [reportsTimelockWait, executeMain, await, bar, insufficientLine,
    cannotExecuteLine, timelockWaitLine, String.ext_iff] <;>
  split_ifs <;> simp_all [String.ext_iff]

/-- When `execute.js` prints a cannot-execute line, and with which reason,
reads answered. -/
theorem executeMain_refuses (formatEther : Nat → String) (txId : Nat) (canExec : Bool)
    (reason : String) (txInfo : TxInfo) (now balance : Nat)
    (execute : Except String String) (getBalanceAfter : Except String Nat) (why : String) :
    Event.log (cannotExecuteLine why) ∈ (executeMain formatEther txId
      { canExecute := Except.ok (canExec, reason), getTransaction := Except.ok txInfo,
        now := now, getBalance := Except.ok balance, execute := execute,
        getBalanceAfter := getBalanceAfter }) ↔
      now ≥ txInfo.timelockUntil ∧ canExec = false ∧ why = reason := by
  cases execute <;> cases getBalanceAfter <;> cases canExec <;>
  simp [executeMain, await, bar, insufficientLine,
    cannotExecuteLine, timelockWaitLine, String.ext_iff] <;>
  split_ifs <;> simp_all [String.ext_iff]

/-- The gate `gates` names is the first that fails, in the order paused,
finalised, quorum, timelock. -/
theorem Ledger.gates_reason (cfg : Ledger.Config) (paused : Bool) (p : Ledger.Proposal)
    (now : Nat) :
    ((Ledger.gates cfg paused p now).2 = Ledger.Reason.paused ↔ paused = true) ∧
    ((Ledger.gates cfg paused p now).2 = Ledger.Reason.finalized ↔
      paused = false ∧ (p.executed || p.cancelled) = true) ∧
    ((Ledger.gates cfg paused p now).2 = Ledger.Reason.quorum ↔
      paused = false ∧ (p.executed || p.cancelled) = false ∧
        p.approvals.length < cfg.quorum) ∧
    ((Ledger.gates cfg paused p now).2 = Ledger.Reason.timelock ↔
      paused = false ∧ (p.executed || p.cancelled) = false ∧
        cfg.quorum ≤ p.approvals.length ∧ now < p.timelockUntil) ∧
    ((Ledger.gates cfg paused p now).1 = false ↔
      (Ledger.gates cfg paused p now).2 ≠ Ledger.Reason.ready) := by
  unfold Ledger.gates
  by_cases h1 : paused = true
  · simp [h1]
  · by_cases h2 : (p.executed || p.cancelled) = true
    · rw [if_neg h1, if_pos h2]
      simp [h1, h2]
    · by_cases h3 : p.approvals.length < cfg.quorum
      · rw [if_neg h1, if_neg h2, if_pos h3]
        simp [h1, h2, h3]
      · by_cases h4 : now < p.timelockUntil
        · rw [if_neg h1, if_neg h2, if_neg h3, if_pos h4]
          simp [h1, h2, h3, h4]
          omega
        · rw [if_neg h1, if_neg h2, if_neg h3, if_neg h4]
          simp [h1, h2, h3, h4]

/-- An operation that succeeds and is not a `propose` replaces at most one
proposal, keeping its destination, value and description. -/
theorem Ledger.step_keeps {cfg : Ledger.Config} {s s1 : Ledger.State} {c : Ledger.Call}
    (h : Ledger.step cfg s c = Except.ok s1) (hc : c.op.isPropose = false) :
    s1.proposals = s.proposals ∨
    ∃ id q q1, s.proposals.get? id = some q ∧ s1.proposals = s.proposals.set id q1 ∧
      q1.dest = q.dest ∧ q1.value = q.value ∧ q1.description = q.description := by
  rcases c with ⟨caller, now, op⟩
  cases op with
  | propose dest value description => simp [Ledger.Op.isPropose] at hc
  | approve id =>
    right
    simp only [Ledger.step] at h
    unfold Ledger.approve at h
    split_ifs at h
    split at h
    · cases h
    · rename_i q hq
      split_ifs at h with h1 h2
      cases h
      exact ⟨id, q, _, hq, rfl, rfl, rfl, rfl⟩
  | execute id =>
    right
    simp only [Ledger.step] at h
    unfold Ledger.execute at h
    split_ifs at h
    split at h
    · cases h
    · rename_i q hq
      split at h
      · cases h
      · cases h
      · cases h
      · split_ifs at h
        cases h
        exact ⟨id, q, _, hq, rfl, rfl, rfl, rfl⟩
  | cancel id =>
    right
    simp only [Ledger.step] at h
    unfold Ledger.cancel at h
    split_ifs at h
    split at h
    · cases h
    · rename_i q hq
      split_ifs at h with h1
      cases h
      exact ⟨id, q, _, hq, rfl, rfl, rfl, rfl⟩
  | pause =>
    left
    simp only [Ledger.step, Ledger.setPaused] at h
    split_ifs at h
    cases h
    rfl
  | unpause =>
    left
    simp only [Ledger.step, Ledger.setPaused] at h
    split_ifs at h
    cases h
    rfl
  | deposit amount =>
    left
    simp only [Ledger.step] at h
    cases h
    rfl
  | grant who role =>
    left
    simp only [Ledger.step, Ledger.grant] at h
    split_ifs at h
    cases h
    rfl

/-- Calls that create no proposal leave the count as it is and keep the
destination, value and description of every proposal. -/
theorem Ledger.run_keeps (cfg : Ledger.Config) (calls : List Ledger.Call)
    (hno : ∀ c ∈ calls, c.op.isPropose = false) (s : Ledger.State) :
    (Ledger.run cfg s calls).proposals.length = s.proposals.length ∧
    ∀ id p, s.proposals.get? id = some p →
      ∃ p1, (Ledger.run cfg s calls).proposals.get? id = some p1 ∧
        p1.dest = p.dest ∧ p1.value = p.value ∧ p1.description = p.description := by
  induction calls generalizing s with
  | nil => exact ⟨rfl, fun id p hp => ⟨p, hp, rfl, rfl, rfl⟩⟩
  | cons c cs ih =>
    have hcs : ∀ c1 ∈ cs, c1.op.isPropose = false :=
      fun c1 h1 => hno c1 (List.mem_cons_of_mem _ h1)
    have hc := hno c (List.mem_cons_self _ _)
    simp only [Ledger.run, List.foldl_cons]
    have hstep : (Ledger.apply cfg s c).proposals.length = s.proposals.length ∧
        ∀ id p, s.proposals.get? id = some p →
          ∃ p1, (Ledger.apply cfg s c).proposals.get? id = some p1 ∧
            p1.dest = p.dest ∧ p1.value = p.value ∧ p1.description = p.description := by
      unfold Ledger.apply
      cases h : Ledger.step cfg s c with
      | error e => exact ⟨rfl, fun id p hp => ⟨p, hp, rfl, rfl, rfl⟩⟩
      | ok s1 =>
        rcases Ledger.step_keeps h hc with heq | ⟨id1, q, q1, hq, hset, hd, hv, hdesc⟩
        · exact ⟨by simp [heq], fun id p hp => ⟨p, by simpa [heq] using hp, rfl, rfl, rfl⟩⟩
        · simp only [hset]
          refine ⟨List.length_set _ _ _, fun id p hp => ?_⟩
          by_cases hid : id1 = id
          · subst hid
            rw [hq] at hp
            cases hp
            have hlt : id1 < s.proposals.length := by
              by_contra hge
              simp [List.getElem?_eq_none (Nat.le_of_not_lt hge)] at hq
            exact ⟨q1, by simp [hlt], hd, hv, hdesc⟩
          · exact ⟨p, by simpa [List.getElem?_set_ne hid] using hp, rfl, rfl, rfl⟩
    have ih1 := ih hcs (Ledger.apply cfg s c)
    refine ⟨by rw [show Ledger.run cfg (Ledger.apply cfg s c) cs = List.foldl (Ledger.apply cfg) (Ledger.apply cfg s c) cs from rfl] at ih1; rw [ih1.1, hstep.1], fun id p hp => ?_⟩
    obtain ⟨p1, hp1, hd1, hv1, hdesc1⟩ := hstep.2 id p hp
    obtain ⟨p2, hp2, hd2, hv2, hdesc2⟩ := ih1.2 id p1 hp1
    exact ⟨p2, hp2, hd2.trans hd1, hv2.trans hv1, hdesc2.trans hdesc1⟩

/-- A successful `propose` appends the new proposal at the position of the
old count. -/
theorem Ledger.propose_appends {cfg : Ledger.Config} {s s1 : Ledger.State}
    {caller dest description : String} {now value : Nat}
    (h : Ledger.propose cfg s caller now dest value description = Except.ok s1) :
    s1.proposals = s.proposals ++
      [{ dest := dest, value := value, description := description,
         level := Ledger.levelOf cfg value, approvals := [], executed := false,
         cancelled := false, timelockUntil := 0 }] := by
  unfold Ledger.propose at h
  split_ifs at h
  cases h
  rfl

/-- An approval that reaches the required count on a ticket whose timelock
duration is zero leaves the status `Executable`, and the closing notice of
`approve_ticket.js` for that record is empty. -/
theorem Registry.zero_duration_silent {cfg : Registry.Config} {s s1 : Registry.State}
    {caller : String} {chainNow id : Nat} {t : Registry.Ticket}
    (h : Registry.approveTicket cfg s caller chainNow id = Except.ok s1)
    (ht : s.tickets.get? id = some t)
    (hzero : cfg.timelockDuration t.severity = 0)
    (hreach : t.approvals.length + 1 = t.requiredApprovals) (now : Nat) :
    ∃ t1, s1.tickets.get? id = some t1 ∧ t1.status = Registry.Status.Executable ∧
      t1.approvals.length = t1.requiredApprovals ∧ t1.timelockUntil = t.timelockUntil ∧
      approveTicketNotice t1.info now = [] := by
  have hlt : id < s.tickets.length := by
    by_contra hge
    simp [List.getElem?_eq_none (Nat.le_of_not_lt hge)] at ht
  unfold Registry.approveTicket at h
  split_ifs at h
  rw [ht] at h
  by_cases h1 : caller ∈ t.approvals
  · simp [h1] at h
  · by_cases h2 : t.status.terminal = true
    · simp [h1, h2] at h
    · simp only [h1, h2, if_false, List.length_append, List.length_singleton, hreach,
        if_true, hzero] at h
      injection h with h
      subst h
      refine ⟨{ t with approvals := t.approvals ++ [caller],
                       status := Registry.Status.Executable },
        by simp [hlt], rfl, by simp [hreach], rfl, ?_⟩
      simp [approveTicketNotice, Registry.Ticket.info, Registry.Status.code, hreach]

/-- An approval that reaches the required count on a ticket whose timelock
duration is not zero leaves the status `Approved` with the timelock ending
that duration after the approval; while that time lies ahead of the clock of
`approve_ticket.js` its closing notice is the line with the seconds remaining. -/
theorem Registry.nonzero_duration_approved {cfg : Registry.Config} {s s1 : Registry.State}
    {caller : String} {chainNow id : Nat} {t : Registry.Ticket}
    (h : Registry.approveTicket cfg s caller chainNow id = Except.ok s1)
    (ht : s.tickets.get? id = some t)
    (hnz : cfg.timelockDuration t.severity ≠ 0)
    (hreach : t.approvals.length + 1 = t.requiredApprovals) (now : Nat) :
    ∃ t1, s1.tickets.get? id = some t1 ∧ t1.status = Registry.Status.Approved ∧
      t1.timelockUntil = chainNow + cfg.timelockDuration t.severity ∧
      (now < chainNow + cfg.timelockDuration t.severity →
        approveTicketNotice t1.info now =
          [Event.log (timelockStartedLine
            (((chainNow + cfg.timelockDuration t.severity : Nat) : Int) - (now : Int)))] ∧
        (0 : Int) < ((chainNow + cfg.timelockDuration t.severity : Nat) : Int) - (now : Int)) := by
  have hlt : id < s.tickets.length := by
    by_contra hge
    simp [List.getElem?_eq_none (Nat.le_of_not_lt hge)] at ht
  unfold Registry.approveTicket at h
  split_ifs at h
  rw [ht] at h
  by_cases h1 : caller ∈ t.approvals
  · simp [h1] at h
  · by_cases h2 : t.status.terminal = true
    · simp [h1, h2] at h
    · simp only [h1, h2, if_false, List.length_append, List.length_singleton, hreach,
        if_true, hnz] at h
      injection h with h
      subst h
      refine ⟨{ t with approvals := t.approvals ++ [caller],
                       status := Registry.Status.Approved,
                       timelockUntil := chainNow + cfg.timelockDuration t.severity },
        by simp [hlt], rfl, rfl, ?_⟩
      intro hnow
      have hpos : 0 < chainNow + cfg.timelockDuration t.severity := by omega
      have hrem : (0 : Int) <
          ((chainNow + cfg.timelockDuration t.severity : Nat) : Int) - (now : Int) := by omega
      refine ⟨?_, hrem⟩
      simp only [approveTicketNotice, Registry.Ticket.info, Registry.Status.code]
      simp only [if_true, hpos, gt_iff_lt, hrem, timelockStartedLine]

/-- A successful `mintTicket` stores the new ticket at the position given by
the number of tickets minted before, and the identifier `mint_ticket.js` would
report from the number minted after it is that position. -/
theorem Registry.mint_id_minted {cfg : Registry.Config} {s s1 : Registry.State}
    {caller holder changeScope : String} {severity : Registry.Severity}
    (h : Registry.mintTicket cfg s caller holder changeScope severity = Except.ok s1) :
    (∃ t, s1.tickets.get? (Registry.minted s) = some t ∧ t.holder = some holder ∧
      t.changeScope = changeScope ∧ t.severity = severity) ∧
    reportedId (Registry.minted s1) = (Registry.minted s : Int) := by
  unfold Registry.mintTicket at h
  split_ifs at h
  cases h
  constructor
  · exact ⟨{ holder := some holder, changeScope := changeScope, severity := severity,
             approvals := [], requiredApprovals := cfg.requiredApprovals severity,
             status := Registry.Status.Pending, timelockUntil := 0, resultMessage := "" },
      by simp [Registry.minted], rfl, rfl, rfl⟩
  · simp [Registry.minted, reportedId]

/-- In the registry whose ticket 0 was executed, a mint stores the new ticket
at position 1, while one ticket has a holder afterwards: an identifier taken
from the number of live tickets would be 0. -/
theorem Registry.mint_id_live :
    (Registry.apply Registry.tables Registry.oneExecuted
      ⟨"0x79722aCD6bd0aB02E4Bf59dd72d605357Bb18999", 1700000200,
        Registry.Op.mintTicket "0x79722aCD6bd0aB02E4Bf59dd72d605357Bb18999" "log rotation"
          Registry.Severity.LOW⟩).tickets.length = 2 ∧
    Registry.live (Registry.apply Registry.tables Registry.oneExecuted
      ⟨"0x79722aCD6bd0aB02E4Bf59dd72d605357Bb18999", 1700000200,
        Registry.Op.mintTicket "0x79722aCD6bd0aB02E4Bf59dd72d605357Bb18999" "log rotation"
          Registry.Severity.LOW⟩) = 1 ∧
    reportedId 1 = 0 ∧ Registry.minted Registry.oneExecuted = 1 := by
  decide

/-! ## The claims on pausing, identifiers, tables and announcements -/

/-- C11: `pause.js` accepts only the arguments `on` and `off` (anything else,
or no argument, prints the usage line and nothing more); it sends `pause()`
exactly when the request is `on` and the vault is not paused, `unpause()`
exactly when the request is `off` and the vault is paused, and nothing
otherwise; when `pause` turns the flag on and `unpause` turns it off, the flag
after the run says whether the request was `on`, and a second run with the
same argument sends nothing. -/
theorem pause_drives_flag (action : String) (rest : List String) (current : Bool)
    (submit : Except String String) (wait : Except String Unit)
    (pausedAfter : Except String Bool) (step : Bool → Tx → Bool)
    (ha : action = "on" ∨ action = "off")
    (hp : step false Tx.pause = true) (hu : step true Tx.unpause = false) :
    let run := fun (flag : Bool) => pauseMain (action :: rest)
      { paused := Except.ok flag, submit := submit, wait := wait,
        pausedAfter := pausedAfter }
    (Tx.pause ∈ sent (run current) ↔ action = "on" ∧ current = false) ∧
    (Tx.unpause ∈ sent (run current) ↔ action = "off" ∧ current = true) ∧
    (¬ (action = "on" ∧ current = false) → ¬ (action = "off" ∧ current = true) →
      sent (run current) = []) ∧
    effect step current (run current) = decide (action = "on") ∧
    sent (run (effect step current (run current))) = [] ∧
    (∀ (other : String) (more : List String) (r : PauseReads),
      other ≠ "on" → other ≠ "off" →
      pauseMain (other :: more) r = [Event.log "사용법: node scripts/pause.js <on|off>"] ∧
      pauseMain [] r = [Event.log "사용법: node scripts/pause.js <on|off>"]) := by
  intro run
  have hs : ∀ flag, sent (run flag) =
      if action = "on" ∧ flag = false then [Tx.pause]
      else if action = "off" ∧ flag = true then [Tx.unpause] else [] :=
    fun flag => pauseMain_sends action rest flag submit wait pausedAfter ha
  have he : effect step current (run current) = decide (action = "on") := by
    unfold effect
    rw [hs]
    rcases ha with rfl | rfl <;> cases current <;> simp [hp, hu]
  refine ⟨?_, ?_, ?_, he, ?_, ?_⟩
  · rw [hs]
    rcases ha with rfl | rfl <;> cases current <;> simp
  · rw [hs]
    rcases ha with rfl | rfl <;> cases current <;> simp
  · intro h1 h2
    rw [hs, if_neg h1, if_neg h2]
  · rw [he, hs]
    rcases ha with rfl | rfl <;> simp
  · intro other more r h1 h2
    simp [pauseMain, h1, h2]

/-- C11 for the request `on` on a vault that is not paused, with a flag that
both transactions flip. -/
theorem pause_drives_flag_witness :
    sent (pauseMain ["on"]
      { paused := Except.ok false, submit := Except.ok "0xabc", wait := Except.ok (),
        pausedAfter := Except.ok true }) = [Tx.pause] ∧
    effect (fun (flag : Bool) (tx : Tx) => if tx = Tx.pause ∨ tx = Tx.unpause then !flag else flag)
      false (pauseMain ["on"]
      { paused := Except.ok false, submit := Except.ok "0xabc", wait := Except.ok (),
        pausedAfter := Except.ok true }) = true := by
  have h := pause_drives_flag "on" [] false (Except.ok "0xabc") (Except.ok ())
    (Except.ok true)
    (fun (flag : Bool) (tx : Tx) => if tx = Tx.pause ∨ tx = Tx.unpause then !flag else flag)
    (Or.inl rfl) (by decide) (by decide)
  exact ⟨by decide, h.2.2.2.1⟩

/-- C12: in a ledger with `n` proposals, after a successful `propose` and any
later calls that create no proposal, `getTransactionCount()` is `n + 1` and
the identifier `propose.js` reports, the count less one, is `n`, the position
at which the new proposal was stored and still stands with its destination,
value and description; the script prints that identifier. -/
theorem proposal_id_reported (cfg : Ledger.Config) (s s1 : Ledger.State)
    (caller dest amountStr description hash : String) (more : List String)
    (chainNow value : Nat) (later : List Ledger.Call)
    (hamount : parseEther amountStr = some (value : Int))
    (hpropose : Ledger.propose cfg s caller chainNow dest value description = Except.ok s1)
    (hno : ∀ c ∈ later, c.op.isPropose = false) :
    let n := Ledger.getTransactionCount s
    let after := Ledger.run cfg s1 later
    Ledger.getTransactionCount s1 = n + 1 ∧
    Ledger.getTransactionCount after = n + 1 ∧
    reportedId (Ledger.getTransactionCount after) = (n : Int) ∧
    s1.proposals.get? n = some
      { dest := dest, value := value, description := description,
        level := Ledger.levelOf cfg value, approvals := [], executed := false,
        cancelled := false, timelockUntil := 0 } ∧
    (∃ p, after.proposals.get? n = some p ∧ p.dest = dest ∧ p.value = value ∧
      p.description = description) ∧
    Event.log ("   거래 ID: " ++ toString (n : Int)) ∈
      proposeMain (dest :: amountStr :: description :: more)
        (Ledger.proposeReads cfg s caller chainNow dest value description hash later) := by
  intro n after
  have happ := Ledger.propose_appends hpropose
  have hk := Ledger.run_keeps cfg later hno s1
  have h1 : Ledger.getTransactionCount s1 = n + 1 := by
    simp [Ledger.getTransactionCount, happ, n]
  have h2 : Ledger.getTransactionCount after = n + 1 := by
    simp only [Ledger.getTransactionCount, after] at h1 ⊢
    rw [hk.1, h1]
  have h3 : s1.proposals.get? n = some
      { dest := dest, value := value, description := description,
        level := Ledger.levelOf cfg value, approvals := [], executed := false,
        cancelled := false, timelockUntil := 0 } := by
    simp [happ, n, Ledger.getTransactionCount]
  refine ⟨h1, h2, ?_, h3, ?_, ?_⟩
  · rw [h2]
    simp [reportedId]
  · obtain ⟨p1, hp1, hd, hv, hdesc⟩ := hk.2 n _ h3
    exact ⟨p1, hp1, hd, hv, hdesc⟩
  · have hs1 : Ledger.apply cfg s ⟨caller, chainNow, Ledger.Op.propose dest value description⟩
        = s1 := by
      simp [Ledger.apply, Ledger.step, hpropose]
    simp only [proposeMain, hamount, Ledger.proposeReads, Int.toNat_ofNat, hs1, hpropose,
      received]
    have h2' : Ledger.getTransactionCount (Ledger.run cfg s1 later) = n + 1 := h2
    have hv : ¬ ((value : Int) < 0) := by omega
    simp [await, h2', reportedId, hv]

/-- C12 on the ledger without proposals: a proposal of 0.0004 ETH followed by
an approval is reported as proposal 0. -/
theorem proposal_id_reported_witness :
    parseEther "0.0004" = some ((400000000000000 : Nat) : Int) ∧
    reportedId (Ledger.getTransactionCount (Ledger.run Ledger.reference
      { Ledger.fresh with proposals :=
        [{ dest := "0x0000000000000000000000000000000000000003", value := 400000000000000,
           description := "office supplies",
           level := Ledger.levelOf Ledger.reference 400000000000000, approvals := [],
           executed := false, cancelled := false, timelockUntil := 0 }] }
      [⟨"0x79722aCD6bd0aB02E4Bf59dd72d605357Bb18999", 1700000010, Ledger.Op.approve 0⟩]))
      = ((Ledger.getTransactionCount Ledger.fresh : Nat) : Int) :=
  ⟨by decide,
   (proposal_id_reported Ledger.reference Ledger.fresh
      { Ledger.fresh with proposals :=
        [{ dest := "0x0000000000000000000000000000000000000003", value := 400000000000000,
           description := "office supplies",
           level := Ledger.levelOf Ledger.reference 400000000000000, approvals := [],
           executed := false, cancelled := false, timelockUntil := 0 }] }
      "0x79722aCD6bd0aB02E4Bf59dd72d605357Bb18999"
      "0x0000000000000000000000000000000000000003" "0.0004" "office supplies" "0xabc" []
      1700000000 400000000000000
      [⟨"0x79722aCD6bd0aB02E4Bf59dd72d605357Bb18999", 1700000010, Ledger.Op.approve 0⟩]
      (by decide) rfl (by decide)).2.2.1⟩

/-- C13: the tables of `demo_full.js` are in the order of the enumerations:
role `i` is the name of the `i`-th role, severity `i` the name of the `i`-th
severity, level `i` a label that starts with the name of the `i`-th tier,
status `i` the Korean word for the `i`-th status, and the tables have no
further entries; `status.js` names the tiers alike, `mint_ticket.js` uses the
same severity table, and `approve_ticket.js` treats the status code 1 as
`Approved`: for that code, and for no other, it prints its timelock notices,
the no-timelock notice when `timelockUntil` is 0 and the seconds remaining
when the timelock lies ahead, while for every other code it only asks for
further approvals when some are missing. -/
theorem enumeration_tables :
    (∀ r : Ledger.Role, roleNames.get? r.code = some r.name) ∧
    (∀ v : Registry.Severity, demoSeverityNames.get? v.code = some v.name) ∧
    (∀ l : Ledger.Level, ∃ gloss, demoLevelNames.get? l.code = some (l.name ++ gloss)) ∧
    (∀ l : Ledger.Level, levelNames.get? l.code = some l.name) ∧
    (∀ st : Registry.Status, demoStatusNames.get? st.code = some st.korean) ∧
    roleNames.length = 4 ∧ demoSeverityNames.length = 4 ∧ demoLevelNames.length = 3 ∧
    demoStatusNames.length = 6 ∧
    severityNames = demoSeverityNames ∧
    Registry.Status.Approved.code = 1 ∧
    (∀ (newInfo : TicketInfo) (now : Nat),
      (Event.log noTimelockLine ∈ approveTicketNotice newInfo now ∨
       ∃ n, Event.log (timelockStartedLine n) ∈ approveTicketNotice newInfo now) →
      newInfo.status = Registry.Status.Approved.code) ∧
    (∀ (newInfo : TicketInfo) (now : Nat),
      newInfo.status = Registry.Status.Approved.code →
      (newInfo.timelockUntil = 0 → approveTicketNotice newInfo now = [Event.log noTimelockLine]) ∧
      (now < newInfo.timelockUntil → approveTicketNotice newInfo now =
        [Event.log (timelockStartedLine ((newInfo.timelockUntil : Int) - (now : Int)))]) ∧
      (0 < newInfo.timelockUntil → newInfo.timelockUntil ≤ now →
        approveTicketNotice newInfo now = [])) ∧
    (∀ (newInfo : TicketInfo) (now : Nat),
      newInfo.status ≠ Registry.Status.Approved.code →
      approveTicketNotice newInfo now =
        if newInfo.approvals < newInfo.requiredApprovals then [Event.log moreApprovalsLine]
        else []) ∧
    (∀ (tokenId address : String) (info newInfo : TicketInfo) (now : Nat),
      newInfo.status = Registry.Status.Approved.code → newInfo.timelockUntil = 0 →
      Event.log noTimelockLine ∈ approveTicketMain tokenId address
        { getTicketInfo := Except.ok info, getApprovalStatus := Except.ok false,
          approveTicket := Except.ok (), getTicketInfoAfter := Except.ok newInfo,
          now := now }) := by
  refine ⟨?_, ?_, ?_, ?_, ?_, rfl, rfl, rfl, rfl, rfl, rfl, ?_, ?_, ?_, ?_⟩
  rotate_left 6
  · intro newInfo now h
    have h1 : newInfo.status = 1 := h
    refine ⟨?_, ?_, ?_⟩
    · intro h0
      simp [approveTicketNotice, h1, h0, noTimelockLine]
    · intro hlt
      have hpos : 0 < newInfo.timelockUntil := by omega
      have hrem : (0 : Int) < (newInfo.timelockUntil : Int) - (now : Int) := by omega
      simp [approveTicketNotice, h1, hpos, hrem, timelockStartedLine]
    · intro hpos hle
      have hrem : ¬ ((0 : Int) < (newInfo.timelockUntil : Int) - (now : Int)) := by omega
      simp [approveTicketNotice, h1, hpos, hrem]
  · intro newInfo now h
    have h1 : ¬ newInfo.status = 1 := h
    simp [approveTicketNotice, h1, moreApprovalsLine]
  · intro tokenId address info newInfo now h h0
    have h1 : newInfo.status = 1 := h
    simp [approveTicketMain, awaitTry, approveTicketNotice, h1, h0, noTimelockLine]
  · intro r
    cases r <;> rfl
  · intro v
    cases v <;> rfl
  · intro l
    cases l
    · exact ⟨"(일반)", by decide⟩
    · exact ⟨"(고액)", by decide⟩
    · exact ⟨"(거버넌스)", by decide⟩
  · intro l
    cases l <;> rfl
  · intro st
    cases st <;> rfl
  · intro newInfo now h
    by_contra hne
    have hne1 : ¬ newInfo.status = 1 := hne
    unfold approveTicketNotice at h
    rw [if_neg hne1] at h
    split_ifs at h <;>
      simp [noTimelockLine, timelockStartedLine, String.ext_iff] at h

/-- C14, as stated, fails: on a paused treasury whose proposal still waits 70
seconds for its timelock, `canExecute` names the paused gate, the first in the
order, yet `execute.js` reports the timelock wait and prints no reason. -/
theorem refusal_reason_counterexample :
    Ledger.canExecute Ledger.reference Ledger.pausedPending 0 1700000020 =
      Except.ok (false, Ledger.Reason.paused) ∧
    Event.log (timelockWaitLine 70) ∈ executeMain (fun w => toString w) 0
      (Ledger.executeReads Ledger.reference Ledger.pausedPending 0 1700000020 1700000020
        Ledger.reasonWords (Except.ok "0xabc") (Except.ok 0)) ∧
    Event.log (cannotExecuteLine (Ledger.reasonWords Ledger.Reason.paused)) ∉
      executeMain (fun w => toString w) 0
      (Ledger.executeReads Ledger.reference Ledger.pausedPending 0 1700000020 1700000020
        Ledger.reasonWords (Except.ok "0xabc") (Except.ok 0)) :=
  ⟨rfl, by decide, by decide⟩

/-- C14, amended: `canExecute` names the first failing gate in the order
paused, finalised, quorum, timelock.  When the timelock of the proposal has
elapsed on the clock of the script and `canExecute` answers false,
`execute.js` reports that gate and no other cause; while the timelock of a
proposal that is neither executed nor cancelled lies ahead on the clock of the
script, it reports the timelock wait and no reason, whatever the other gates. -/
theorem refusal_reason_order (cfg : Ledger.Config) (s : Ledger.State) (id : Nat)
    (p : Ledger.Proposal) (chainNow now : Nat) (text : Ledger.Reason → String)
    (formatEther : Nat → String) (execute : Except String String)
    (getBalanceAfter : Except String Nat)
    (hp : s.proposals.get? id = some p) :
    let t := executeMain formatEther id
      (Ledger.executeReads cfg s id chainNow now text execute getBalanceAfter)
    let g := Ledger.gates cfg s.paused p chainNow
    (g.2 = Ledger.Reason.paused ↔ s.paused = true) ∧
    (g.2 = Ledger.Reason.finalized ↔
      s.paused = false ∧ (p.executed || p.cancelled) = true) ∧
    (g.2 = Ledger.Reason.quorum ↔
      s.paused = false ∧ (p.executed || p.cancelled) = false ∧
        p.approvals.length < cfg.quorum) ∧
    (g.2 = Ledger.Reason.timelock ↔
      s.paused = false ∧ (p.executed || p.cancelled) = false ∧
        cfg.quorum ≤ p.approvals.length ∧ chainNow < p.timelockUntil) ∧
    (g.1 = false ↔ g.2 ≠ Ledger.Reason.ready) ∧
    (p.timelockUntil ≤ now → g.1 = false →
      Event.log (cannotExecuteLine (text g.2)) ∈ t ∧
      (∀ why, Event.log (cannotExecuteLine why) ∈ t → why = text g.2) ∧
      ¬ reportsTimelockWait t) ∧
    (now < p.timelockUntil → (p.executed || p.cancelled) = false →
      reportsTimelockWait t ∧ ¬ reportsCannotExecute t) := by
  intro t g
  have ht : t = executeMain formatEther id
      { canExecute := Except.ok (g.1, text g.2), getTransaction := Except.ok p.info,
        now := now, getBalance := Except.ok s.balance, execute := execute,
        getBalanceAfter := getBalanceAfter } := by
    simp only [t, g, Ledger.executeReads, Ledger.canExecute, Ledger.getTransaction, hp,
      received]
  have hw := executeMain_waits formatEther id g.1 (text g.2) p.info now s.balance execute
    getBalanceAfter
  have hr := executeMain_refuses formatEther id g.1 (text g.2) p.info now s.balance execute
    getBalanceAfter
  have hinfo : p.info.timelockUntil = p.timelockUntil := rfl
  rw [hinfo] at hw
  simp only [hinfo] at hr
  have hg := Ledger.gates_reason cfg s.paused p chainNow
  refine ⟨hg.1, hg.2.1, hg.2.2.1, hg.2.2.2.1, hg.2.2.2.2, ?_, ?_⟩
  · intro h1 h2
    rw [ht]
    refine ⟨(hr _).2 ⟨h1, h2, rfl⟩, fun why hwhy => ((hr why).1 hwhy).2.2, ?_⟩
    rw [hw]
    omega
  · intro h1 _
    rw [ht]
    refine ⟨hw.2 h1, ?_⟩
    rintro ⟨why, hwhy⟩
    have := ((hr why).1 hwhy).1
    omega

/-- C14, amended, on the paused treasury whose proposal still waits for its
timelock. -/
theorem refusal_reason_order_witness :
    Ledger.pausedPending.proposals.get? 0 = some Ledger.pendingL2 ∧
    (reportsTimelockWait (executeMain (fun w => toString w) 0
      (Ledger.executeReads Ledger.reference Ledger.pausedPending 0 1700000020 1700000020
        Ledger.reasonWords (Except.ok "0xabc") (Except.ok 0))) ∧
     ¬ reportsCannotExecute (executeMain (fun w => toString w) 0
      (Ledger.executeReads Ledger.reference Ledger.pausedPending 0 1700000020 1700000020
        Ledger.reasonWords (Except.ok "0xabc") (Except.ok 0)))) :=
  ⟨rfl, (refusal_reason_order Ledger.reference Ledger.pausedPending 0 Ledger.pendingL2
    1700000020 1700000020 Ledger.reasonWords (fun w => toString w) (Except.ok "0xabc")
    (Except.ok 0) rfl).2.2.2.2.2.2 (by decide) rfl⟩

/-- C15: `mint_ticket.js` hands the value of `parseInt` to `mintTicket`
unchecked: with the arguments `방화벽 규칙 변경` and `7` it sends severity 7,
which is none of the codes 0 to 3 and which it prints as `undefined`; with a
second argument that is no number it sends `NaN`. -/
theorem mint_severity_unchecked :
    sent (mintTicketMain ["방화벽 규칙 변경", "7"] "0x79722aCD6bd0aB02E4Bf59dd72d605357Bb18999"
      { mintTicket := Except.error "CALL_EXCEPTION", wait := Except.ok (),
        totalSupply := Except.ok 1 })
      = [Tx.mintTicket "0x79722aCD6bd0aB02E4Bf59dd72d605357Bb18999" "방화벽 규칙 변경" (some 7)] ∧
    parseInt "7" = some 7 ∧ (7 : Int) ∉ [0, 1, 2, 3] ∧
    indexed severityNames (parseInt "7") = "undefined" ∧
    sent (mintTicketMain ["방화벽 규칙 변경", "high"] "0x79722aCD6bd0aB02E4Bf59dd72d605357Bb18999"
      { mintTicket := Except.error "INVALID_ARGUMENT", wait := Except.ok (),
        totalSupply := Except.ok 1 })
      = [Tx.mintTicket "0x79722aCD6bd0aB02E4Bf59dd72d605357Bb18999" "방화벽 규칙 변경" none] := by
  decide

/-- C17, as stated, fails: on a low-severity ticket, whose timelock duration
is zero, the approval that reaches the required count leaves the status
`Executable`; `approve_ticket.js` sends that approval, prints the count
`2 / 2` and does not print its notice that the ticket has no timelock and is
executable. -/
theorem zero_timelock_notice_missing :
    Registry.tables.timelockDuration Registry.lowTicket.severity = 0 ∧
    (Registry.apply Registry.tables Registry.lowPending
        ⟨"0x451A5493Eb07f707e208350d0A1e0cd277Cac0ba", 1700000000,
          Registry.Op.approveTicket 0⟩).tickets.get? 0 =
      some { Registry.lowTicket with
        approvals := ["0x79722aCD6bd0aB02E4Bf59dd72d605357Bb18999",
                      "0x451A5493Eb07f707e208350d0A1e0cd277Cac0ba"],
        status := Registry.Status.Executable } ∧
    Tx.approveTicket "0" ∈ sent (approveTicketMain "0" "0x451A5493Eb07f707e208350d0A1e0cd277Cac0ba"
      (Registry.approveTicketReads Registry.tables Registry.lowPending
        "0x451A5493Eb07f707e208350d0A1e0cd277Cac0ba" 0 1700000000 1700000005)) ∧
    Event.log noTimelockLine ∉ approveTicketMain "0" "0x451A5493Eb07f707e208350d0A1e0cd277Cac0ba"
      (Registry.approveTicketReads Registry.tables Registry.lowPending
        "0x451A5493Eb07f707e208350d0A1e0cd277Cac0ba" 0 1700000000 1700000005) ∧
    Event.log "   최종 승인 상태: 2 / 2" ∈ approveTicketMain "0" "0x451A5493Eb07f707e208350d0A1e0cd277Cac0ba"
      (Registry.approveTicketReads Registry.tables Registry.lowPending
        "0x451A5493Eb07f707e208350d0A1e0cd277Cac0ba" 0 1700000000 1700000005) := by
  decide

/-- C17, amended: after the approval it sent, `approve_ticket.js` prints its
no-timelock notice exactly when the record it reads back has the status code
1 of `Approved` and `timelockUntil` 0, and a line with seconds remaining
exactly when the status code is 1 and `timelockUntil` lies ahead of its clock,
the seconds being positive.  For the registry of the specification: when the
approval reaches the required count on a severity of duration zero the ticket
is `Executable` and the closing notice is empty; on a severity of another
duration it is `Approved` with the timelock ending that duration after the
approval, and while that lies ahead the notice is the line with the seconds
remaining. -/
theorem approve_ticket_notice (tokenId address : String) (info newInfo : TicketInfo)
    (now : Nat) :
    let t := approveTicketMain tokenId address
      { getTicketInfo := Except.ok info, getApprovalStatus := Except.ok false,
        approveTicket := Except.ok (), getTicketInfoAfter := Except.ok newInfo,
        now := now }
    (Event.log noTimelockLine ∈ t ↔
      newInfo.status = Registry.Status.Approved.code ∧ newInfo.timelockUntil = 0) ∧
    ((∃ n, Event.log (timelockStartedLine n) ∈ t) ↔
      newInfo.status = Registry.Status.Approved.code ∧ now < newInfo.timelockUntil) ∧
    (newInfo.status = Registry.Status.Approved.code → now < newInfo.timelockUntil →
      Event.log (timelockStartedLine ((newInfo.timelockUntil : Int) - (now : Int))) ∈ t ∧
      (0 : Int) < (newInfo.timelockUntil : Int) - (now : Int)) ∧
    (∀ (cfg : Registry.Config) (s s1 : Registry.State) (caller : String)
        (chainNow id : Nat) (tk : Registry.Ticket),
      Registry.approveTicket cfg s caller chainNow id = Except.ok s1 →
      s.tickets.get? id = some tk →
      tk.approvals.length + 1 = tk.requiredApprovals →
      (cfg.timelockDuration tk.severity = 0 →
        ∃ t1, s1.tickets.get? id = some t1 ∧ t1.status = Registry.Status.Executable ∧
          approveTicketNotice t1.info now = []) ∧
      (cfg.timelockDuration tk.severity ≠ 0 →
        ∃ t1, s1.tickets.get? id = some t1 ∧ t1.status = Registry.Status.Approved ∧
          t1.timelockUntil = chainNow + cfg.timelockDuration tk.severity ∧
          (now < chainNow + cfg.timelockDuration tk.severity →
            approveTicketNotice t1.info now =
              [Event.log (timelockStartedLine
                (((chainNow + cfg.timelockDuration tk.severity : Nat) : Int) -
                  (now : Int)))]))) := by
  intro t
  have hcode : Registry.Status.Approved.code = 1 := rfl
  rw [hcode]
  refine ⟨?_, ?_, ?_, ?_⟩
  · simp only [t, approveTicketMain, awaitTry, approveTicketNotice]
    by_cases h1 : newInfo.status = 1
    · by_cases h0 : newInfo.timelockUntil = 0
      · simp [h1, h0, noTimelockLine]
      · have hpos : 0 < newInfo.timelockUntil := by omega
        simp only [h1, if_true, hpos, gt_iff_lt]
        split_ifs <;> simp [h0, bar, noTimelockLine, String.ext_iff]
    · simp only [h1, if_false]
      split_ifs <;> simp [h1, bar, noTimelockLine, String.ext_iff]
  · simp only [t, approveTicketMain, awaitTry, approveTicketNotice]
    by_cases h1 : newInfo.status = 1
    · by_cases hlt : now < newInfo.timelockUntil
      · have hpos : 0 < newInfo.timelockUntil := by omega
        have hrem : (0 : Int) < (newInfo.timelockUntil : Int) - (now : Int) := by omega
        simp only [h1, if_true, hpos, gt_iff_lt, hrem, hlt, and_self, iff_true]
        exact ⟨(newInfo.timelockUntil : Int) - (now : Int), by simp [timelockStartedLine]⟩
      · simp only [h1, hlt, and_false, iff_false, not_exists]
        intro n
        have hrem : ¬ ((0 : Int) < (newInfo.timelockUntil : Int) - (now : Int)) := by omega
        simp only [if_true, gt_iff_lt, hrem, if_false]
        split_ifs <;> simp [bar, timelockStartedLine, String.ext_iff]
    · simp only [h1, false_and, iff_false, not_exists, if_false]
      intro n
      split_ifs <;> simp [bar, timelockStartedLine, String.ext_iff]
  · intro h1 hlt
    have hpos : 0 < newInfo.timelockUntil := by omega
    have hrem : (0 : Int) < (newInfo.timelockUntil : Int) - (now : Int) := by omega
    refine ⟨?_, hrem⟩
    simp [t, approveTicketMain, awaitTry, approveTicketNotice, h1, hpos, hrem,
      timelockStartedLine]
  · intro cfg s s1 caller chainNow id tk h htk hreach
    constructor
    · intro hzero
      obtain ⟨t1, h1, h2, _, _, h5⟩ := Registry.zero_duration_silent h htk hzero hreach now
      exact ⟨t1, h1, h2, h5⟩
    · intro hnz
      obtain ⟨t1, h1, h2, h3, h4⟩ :=
        Registry.nonzero_duration_approved h htk hnz hreach now
      exact ⟨t1, h1, h2, h3, fun hnow => (h4 hnow).1⟩

/-- C18: the amount `demo_full.js` proposes, `parseEther("0.01")`, is
10000000000000000 wei; it is above the reference threshold of L1
(500000000000000 wei) and above that of L2 (1000000000000000 wei), so the
comparison of `propose.js` labels it L3, while the heading of the step names
L1. -/
theorem demo_amount_level :
    parseEther demoAmount = some 10000000000000000 ∧
    parseEther "0.0005" = some 500000000000000 ∧
    parseEther "0.001" = some 1000000000000000 ∧
    ¬ ((10000000000000000 : Int) ≤ 500000000000000) ∧
    level 10000000000000000 500000000000000 1000000000000000 = "L3 (타임락 2분)" ∧
    Ledger.levelOf Ledger.reference 10000000000000000 = Ledger.Level.L3 ∧
    demoProposeHeading = "\n[3] ETH 지출 제안 (L1 - 0.01 ETH)" := by
  decide

/-- C19: the label of `propose.js` for every amount classified L2 announces 90
seconds and so does its tier table, but its usage example and the banner of
`deploy.js` announce 30 seconds for L2; for L3 the label and the table
announce 120 seconds, the usage example and the banner 60; for L1 all four
announce no timelock. -/
theorem timelock_figures_disagree :
    (∀ amount t1 t2 : Int, t1 < amount → amount ≤ t2 →
      announced (level amount t1 t2) = 90) ∧
    (proposeUsage.get? 5 =
        some "  node scripts/propose.js 0x0000...0001 0.0008 \"장비구매\"   → L2 (30초)" ∧
      (proposeUsage.get? 5).map announced = some 30) ∧
    (proposeUsage.get? 9 = some "  L2: 0.0005~0.001 ETH → 타임락 1분 30초" ∧
      (proposeUsage.get? 9).map announced = some 90) ∧
    (deployBanner.get? 2 = some "   • L2: 0.0005 ~ 0.001 ETH, 타임락 30초" ∧
      (deployBanner.get? 2).map announced = some 30) ∧
    ((proposeUsage.get? 6).map announced = some 60 ∧
      (proposeUsage.get? 10).map announced = some 120 ∧
      announced "L3 (타임락 2분)" = 120 ∧
      (deployBanner.get? 3).map announced = some 60) ∧
    ((proposeUsage.get? 4).map announced = some 0 ∧
      (proposeUsage.get? 8).map announced = some 0 ∧
      announced "L1 (타임락 없음)" = 0 ∧
      (deployBanner.get? 1).map announced = some 0) := by
  refine ⟨?_, by decide, by decide, by decide, by decide, by decide⟩
  intro amount t1 t2 h1 h2
  have hl : level amount t1 t2 = "L2 (타임락 1분 30초)" := by
    unfold level
    rw [if_neg (by omega), if_pos h2]
  rw [hl]
  decide

/-- C20: for an argument list with at least one argument, the message of
`execute_ticket.js` is the second argument as given when it is present and
not empty, and `작업 완료` when it is absent or empty; it is never empty, and
every `executeTicket` the script sends carries the first argument and that
message. -/
theorem result_message (tokenId : String) (rest : List String) (r : ExecuteTicketReads) :
    (∀ m more, rest = m :: more → m ≠ "" → resultMsg (tokenId :: rest) = m) ∧
    (rest = [] → resultMsg (tokenId :: rest) = "작업 완료") ∧
    (∀ more, rest = "" :: more → resultMsg (tokenId :: rest) = "작업 완료") ∧
    resultMsg (tokenId :: rest) ≠ "" ∧
    (∀ id m, Tx.executeTicket id m ∈ sent (executeTicketMain (tokenId :: rest) r) →
      id = tokenId ∧ m = resultMsg (tokenId :: rest) ∧ m ≠ "") := by
  have hne : resultMsg (tokenId :: rest) ≠ "" := by
    unfold resultMsg
    cases rest with
    | nil => simp
    | cons m more =>
      simp
      split_ifs with h
      · decide
      · exact h
  refine ⟨?_, ?_, ?_, hne, ?_⟩
  · rintro m more rfl hm
    simp [resultMsg, hm]
  · rintro rfl
    simp [resultMsg]
  · rintro more rfl
    simp [resultMsg]
  · intro id m hm
    rw [executeTicket_sends] at hm
    rcases r with ⟨ie, gt, now, ex, oo⟩
    rcases ie with e | ⟨b, reason⟩
    · simp at hm
    · cases b
      · simp at hm
      · simp at hm
        rcases hm with ⟨rfl, rfl⟩
        exact ⟨rfl, rfl, hne⟩

/-! ## The claim on the order of the tiers -/

/-- The rank of the label `propose.js` announces, by the two comparisons. -/
theorem tierRank_level (amount t1 t2 : Int) :
    tierRank (level amount t1 t2) =
      if amount ≤ t1 then 1 else if amount ≤ t2 then 2 else 3 := by
  unfold level
  split_ifs <;> decide

/-- C21: for arbitrary thresholds, misordered ones included, the tier
`propose.js` announces does not go down when the amount goes up, under the
order L1 < L2 < L3; every amount gets one of the three tiers; and when
`t1 ≥ t2` no amount is labelled L2. -/
theorem level_monotone (a b t1 t2 : Int) (hab : a ≤ b) :
    tierRank (level a t1 t2) ≤ tierRank (level b t1 t2) ∧
    (1 ≤ tierRank (level a t1 t2) ∧ tierRank (level a t1 t2) ≤ 3) ∧
    (tierRank (level a t1 t2) = 1 ↔ level a t1 t2 = "L1 (타임락 없음)") ∧
    (tierRank (level a t1 t2) = 2 ↔ level a t1 t2 = "L2 (타임락 1분 30초)") ∧
    (tierRank (level a t1 t2) = 3 ↔ level a t1 t2 = "L3 (타임락 2분)") ∧
    (t2 ≤ t1 → ∀ amount : Int, level amount t1 t2 ≠ "L2 (타임락 1분 30초)" ∧
      tierRank (level amount t1 t2) ≠ 2) := by
  refine ⟨?_, ?_, ?_, ?_, ?_, ?_⟩
  · rw [tierRank_level, tierRank_level]
    split_ifs <;> omega
  · rw [tierRank_level]
    split_ifs <;> omega
  · rw [tierRank_level]
    unfold level
    split_ifs <;> simp
  · rw [tierRank_level]
    unfold level
    split_ifs <;> simp
  · rw [tierRank_level]
    unfold level
    split_ifs <;> simp
  · intro h amount
    constructor
    · unfold level
      split_ifs with h1 h2
      · decide
      · omega
      · decide
    · rw [tierRank_level]
      split_ifs <;> omega

/-- C21 at the misordered thresholds 10 and 5: the amounts 7 and 12 are
labelled L1 and L3. -/
theorem level_monotone_witness :
    (7 : Int) ≤ 12 ∧ tierRank (level 7 10 5) ≤ tierRank (level 12 10 5) ∧
    level 7 10 5 = "L1 (타임락 없음)" ∧ level 12 10 5 = "L3 (타임락 2분)" ∧
    level 7 10 5 ≠ "L2 (타임락 1분 30초)" :=
  ⟨by decide, (level_monotone 7 12 10 5 (by decide)).1, by decide, by decide,
    ((level_monotone 7 12 10 5 (by decide)).2.2.2.2.2 (by decide) 7).1⟩

end Treasury
